import Mathlib

/-!
# Verification of the geneformer-atlas data-access layer and view computations

Shallow embedding of the code in `src/hooks/useData.ts` (the read-through JSON
cache `fetchJson`, the subscription wrapper `useAsync`, and the hooks built on
them, in particular `useLayerCellTypes`) and of the derived-state computation
`filteredFeatures` from `src/pages/LayerExplorer.tsx`.

The JavaScript event loop is modelled as a small-step transition system: a
`World` holds the process-wide cache, the log of issued HTTP GETs, the state of
every `useAsync` subscription, and the set of in-flight asynchronous tasks; an
`Event` is one scheduler step (an effect run, an unmount, the arrival of a
network response, or the delivery of a queued promise callback).
-/

namespace GeneformerAtlas

/-- Parsed JSON values (the payloads are opaque to the data-access layer; this
universe is enough to distinguish payloads of distinct routes). `null` is the
JSON value `null`, distinct from the JavaScript `null` used for absent data,
which is modelled by `Option.none`. -/
inductive Json where
  | null : Json
  | num (n : Int) : Json
  | str (s : String) : Json
  deriving DecidableEq, Repr

/- ----------------------------------------------------------------------
   LayerExplorer.tsx : the `filteredFeatures` derived state (lines 50-57)

     const q = geneSearch.toLowerCase().trim()
     const filtered = q
       ? features.filter(f => f.tg.some(g => g.n.toLowerCase().includes(q)))
       : features
     return [...filtered].sort((a, b) => b.na - a.na)
   ---------------------------------------------------------------------- -/

/-- One entry of a feature's top-gene list (`tg`): gene name `n`, annotation
score `a` (field `a` is unused by `filteredFeatures`). -/
structure TopGene where
  n : String
  a : Int
  deriving DecidableEq, Repr

/-- A per-layer feature record, restricted to the fields `filteredFeatures`
reads: index `i`, annotation count `na`, best label `lb`, top genes `tg`.
The remaining display-only fields of `FeatureCompact` are not consulted by the
filter/sort and are omitted. -/
structure FeatureCompact where
  i : Int
  na : Int
  lb : String
  tg : List TopGene
  deriving DecidableEq, Repr

/-- `JavaScript String.prototype.includes` on character lists: `p` occurs as a
contiguous substring. -/
def charsIncludes (p : List Char) : List Char → Bool
  | [] => p.isPrefixOf []
  | c :: cs => p.isPrefixOf (c :: cs) || charsIncludes p cs

/-- `s.includes(pat)` for strings. -/
def strIncludes (s pat : String) : Bool :=
  charsIncludes pat.data s.data

/-- The filter predicate of `filteredFeatures`:
`f.tg.some(g => g.n.toLowerCase().includes(q))`, where `q` is the already
lower-cased and trimmed search string. -/
def geneMatches (q : String) (f : FeatureCompact) : Bool :=
  f.tg.any (fun g => strIncludes g.n.toLower q)

/-- Insert a feature into a list already sorted by descending `na`, placing it
before the first element whose `na` is not larger.  Used to embed
`Array.prototype.sort` with comparator `(a, b) => b.na - a.na`, which
ECMAScript specifies to be a stable sort. -/
def insertByNaDesc (x : FeatureCompact) : List FeatureCompact → List FeatureCompact
  | [] => [x]
  | y :: ys => if y.na ≤ x.na then x :: y :: ys else y :: insertByNaDesc x ys

/-- Stable sort by descending `na` (embedding of
`[...filtered].sort((a, b) => b.na - a.na)`).  Each element is inserted in
front of the later-in-the-original elements with equal `na`, which is exactly
the stable behaviour required of the JavaScript sort. -/
def sortByNaDesc : List FeatureCompact → List FeatureCompact
  | [] => []
  | x :: xs => insertByNaDesc x (sortByNaDesc xs)

/-- The intermediate `filtered` constant of `filteredFeatures`: all features
when the normalised query is empty (JavaScript falsiness of the empty string),
otherwise the gene-matching ones. -/
def filteredUnsorted (features : List FeatureCompact) (geneSearch : String) : List FeatureCompact :=
  let q := geneSearch.toLower.trim
  if q = String.mk [] then features else features.filter (geneMatches q)

/-- The `filteredFeatures` memo of `LayerExplorer` (for a non-null `features`
array). -/
def filteredFeatures (features : List FeatureCompact) (geneSearch : String) : List FeatureCompact :=
  sortByNaDesc (filteredUnsorted features geneSearch)


/- ----------------------------------------------------------------------
   useData.ts : the data-access layer

     const cache = new Map<string, unknown>()

     async function fetchJson<T>(path) {
       const key = path
       if (cache.has(key)) return cache.get(key) as T
       const res = await fetch(BASE + path)
       if (!res.ok) throw new Error(`Failed to load ${path}: ${res.status}`)
       const data = await res.json()
       cache.set(key, data)
       return data as T
     }

     function useAsync<T>(loader, deps) {
       const [data, setData] = useState(null)
       const [loading, setLoading] = useState(true)
       const [error, setError] = useState(null)
       const mounted = useRef(true)
       useEffect(() => {
         mounted.current = true
         setLoading(true); setError(null)
         loader()
           .then(d => { if (mounted.current) { setData(d); setLoading(false) } })
           .catch(e => { if (mounted.current) { setError(e.message); setLoading(false) } })
         return () => { mounted.current = false }
       }, deps)
       return { data, loading, error }
     }

   The event loop is single-threaded: the synchronous prefix of `loader()` (the
   cache check and the `fetch(...)` call of `fetchJson`, or the range check of
   the `useLayerCellTypes` loader) runs atomically inside the effect, and the
   `.then`/`.catch` continuations run later as their own steps.  A network
   response and the subsequent JSON parse are collapsed into one `netRespond`
   step: no claim distinguishes interleavings between those two await points,
   and the cache write happens at the parse, i.e. inside `netRespond`.
   ---------------------------------------------------------------------- -/

/-- What the network/server does for a request to a given key.  `success v`
means the response had an ok status and its body parsed as `v`; `badStatus`
means `!res.ok`; `netError` means `fetch` itself rejected with message `msg`;
`parseError` means the status was ok but `res.json()` rejected with `msg`. -/
inductive FetchOutcome where
  | success (v : Json)
  | badStatus (status : Nat)
  | netError (msg : String)
  | parseError (msg : String)
  deriving DecidableEq, Repr

/-- A fetch outcome on which `fetchJson` rejects. -/
def FetchOutcome.fails : FetchOutcome → Bool
  | .success _ => false
  | .badStatus _ => true
  | .netError _ => true
  | .parseError _ => true

/-- `String(layer).padStart(2, '0')`. -/
def padTwo (layer : Int) : String :=
  let s := toString layer
  if s.length < 2 then "0" ++ s else s

/-- The dataset key of the optional per-layer cell-type route built by
`useLayerCellTypes`. -/
def cellTypesKey (layer : Int) : String :=
  "layer_" ++ padTwo layer ++ "_celltypes.json"

/-- The dataset key built by `useLayerFeatures`. -/
def layerFeaturesKey (layer : Int) : String :=
  "layer_" ++ padTwo layer ++ "_features.json"

/-- The message of the error thrown by `fetchJson` on a non-ok status. -/
def failMsg (key : String) (status : Nat) : String :=
  "Failed to load " ++ key ++ ": " ++ toString status

/-- The loader closures passed to `useAsync` in useData.ts: every hook except
`useLayerCellTypes` passes `() => fetchJson(key)` for a fixed key; the
`useLayerCellTypes` loader range-checks the layer and wraps its `fetchJson`
call in a catch-all returning `null`. -/
inductive Loader where
  | plain (key : String)
  | cellTypes (layer : Int)
  deriving DecidableEq, Repr

/-- Where an in-flight loader invocation stands.  `awaitingNet key opt`: the
GET for `key` has been issued and the response not yet processed (`opt` records
whether the `fetchJson` call sits inside the `useLayerCellTypes` try/catch);
`toResolve d`: the loader promise is resolved with `d` (JavaScript `null`
modelled as `none`) and the `.then` continuation is queued; `toReject msg`:
the promise is rejected and the `.catch` continuation is queued. -/
inductive TaskPhase where
  | awaitingNet (key : String) (opt : Bool)
  | toResolve (d : Option Json)
  | toReject (msg : String)
  deriving DecidableEq, Repr

/-- An in-flight asynchronous task: which subscription started it and where it
stands. -/
structure Task where
  owner : Nat
  phase : TaskPhase
  deriving DecidableEq, Repr

/-- The state of one `useAsync` subscription: the current loader (the deps),
the three state cells, the shared `mounted.current` ref, and whether the
component has been finally unmounted (after which React never re-runs its
effect). -/
structure Sub where
  loader : Loader
  data : Option Json
  loading : Bool
  error : Option String
  mounted : Bool
  torndown : Bool
  deriving DecidableEq, Repr

/-- The whole process state: the process-wide `cache` map, the log of issued
HTTP GETs (in order), the subscriptions (indexed by creation order,
`nSubs`-bounded), and the in-flight tasks (indexed by a fresh id counter). -/
structure World where
  cache : String → Option Json
  netLog : List String
  nSubs : Nat
  subs : Nat → Option Sub
  nextId : Nat
  tasks : Nat → Option Task

/-- The empty process: nothing cached, nothing fetched, no subscriptions. -/
def World.init : World :=
  { cache := fun _ => none
    netLog := []
    nSubs := 0
    subs := fun _ => none
    nextId := 0
    tasks := fun _ => none }

/-- Run a loader synchronously up to its first suspension point, as the effect
body does: returns the initial task phase and the list (empty or singleton) of
GETs issued.  For `plain key` this is the synchronous prefix of
`fetchJson key`: a cache hit resolves immediately with the cached value and no
request; a miss issues the request.  For `cellTypes layer` the out-of-range
check resolves immediately with `null`; otherwise the inner `fetchJson` prefix
runs on the cell-types key, with failures to be caught. -/
def startLoader (cache : String → Option Json) : Loader → TaskPhase × List String
  | .plain key =>
    match cache key with
    | some v => (.toResolve (some v), [])
    | none => (.awaitingNet key false, [key])
  | .cellTypes layer =>
    if layer < 0 ∨ layer > 17 then (.toResolve none, [])
    else
      match cache (cellTypesKey layer) with
      | some v => (.toResolve (some v), [])
      | none => (.awaitingNet (cellTypesKey layer) true, [cellTypesKey layer])

/-- Mount a new `useAsync` consumer: initial render (`data = null`,
`loading = true`, `error = null`), first effect run (`mounted.current = true`,
`setLoading(true)`, `setError(null)`), and the synchronous prefix of the
loader. -/
def doMount (w : World) (ldr : Loader) : World :=
  { cache := w.cache
    netLog := w.netLog ++ (startLoader w.cache ldr).2
    nSubs := w.nSubs + 1
    subs := fun j => if j = w.nSubs then some ⟨ldr, none, true, none, true, false⟩ else w.subs j
    nextId := w.nextId + 1
    tasks := fun t => if t = w.nextId then some ⟨w.nSubs, (startLoader w.cache ldr).1⟩ else w.tasks t }

/-- The dependency key of subscription `i` changes: React runs the previous
effect's cleanup (`mounted.current = false`) and then the new effect body
(`mounted.current = true`, `setLoading(true)`, `setError(null)`, new loader
started) within one synchronous flush, so no promise continuation can observe
the intermediate `false`.  `data` is not reset.  The previous task, if any,
stays in flight.  Never happens after final unmount. -/
def doRerun (w : World) (i : Nat) (ldr : Loader) : World :=
  match w.subs i with
  | none => w
  | some s =>
    if s.torndown then w
    else
      { w with
        netLog := w.netLog ++ (startLoader w.cache ldr).2
        subs := fun j =>
          if j = i then some { s with loader := ldr, loading := true, error := none, mounted := true }
          else w.subs j
        nextId := w.nextId + 1
        tasks := fun t => if t = w.nextId then some ⟨i, (startLoader w.cache ldr).1⟩ else w.tasks t }

/-- Final unmount of subscription `i`: only the cleanup runs
(`mounted.current = false`); the effect never runs again. -/
def doUnmount (w : World) (i : Nat) : World :=
  match w.subs i with
  | none => w
  | some s =>
    { w with
      subs := fun j =>
        if j = i then some { s with mounted := false, torndown := true } else w.subs j }

/-- The response for task `tid` arrives and is processed through the rest of
`fetchJson`: an ok status whose body parses stores the value in the cache and
resolves; `!res.ok` throws the `Failed to load` error without touching the
cache; a network-level rejection or a body that fails to parse propagates the
underlying error, also without touching the cache.  Inside the
`useLayerCellTypes` try/catch (`opt = true`) every failure is caught and turned
into a resolution with `null`. -/
def doNetRespond (server : String → FetchOutcome) (w : World) (tid : Nat) : World :=
  match w.tasks tid with
  | some ⟨owner, .awaitingNet key opt⟩ =>
    match server key with
    | .success v =>
      { w with
        cache := fun k => if k = key then some v else w.cache k
        tasks := fun t => if t = tid then some ⟨owner, .toResolve (some v)⟩ else w.tasks t }
    | .badStatus status =>
      { w with
        tasks := fun t =>
          if t = tid then
            some ⟨owner, if opt then .toResolve none else .toReject (failMsg key status)⟩
          else w.tasks t }
    | .netError msg =>
      { w with
        tasks := fun t =>
          if t = tid then some ⟨owner, if opt then .toResolve none else .toReject msg⟩
          else w.tasks t }
    | .parseError msg =>
      { w with
        tasks := fun t =>
          if t = tid then some ⟨owner, if opt then .toResolve none else .toReject msg⟩
          else w.tasks t }
  | _ => w

/-- The queued `.then`/`.catch` continuation of task `tid` runs: it checks
`mounted.current` of its owner and, only if set, writes the owner's state
cells exactly as the code does (`setData(d); setLoading(false)` resp.
`setError(e.message); setLoading(false)`).  The task is consumed. -/
def doDeliver (w : World) (tid : Nat) : World :=
  match w.tasks tid with
  | some ⟨owner, .toResolve d⟩ =>
    match w.subs owner with
    | some s =>
      if s.mounted then
        { w with
          tasks := fun t => if t = tid then none else w.tasks t
          subs := fun j =>
            if j = owner then some { s with data := d, loading := false } else w.subs j }
      else { w with tasks := fun t => if t = tid then none else w.tasks t }
    | none => { w with tasks := fun t => if t = tid then none else w.tasks t }
  | some ⟨owner, .toReject msg⟩ =>
    match w.subs owner with
    | some s =>
      if s.mounted then
        { w with
          tasks := fun t => if t = tid then none else w.tasks t
          subs := fun j =>
            if j = owner then some { s with error := some msg, loading := false } else w.subs j }
      else { w with tasks := fun t => if t = tid then none else w.tasks t }
    | none => { w with tasks := fun t => if t = tid then none else w.tasks t }
  | _ => w

/-- One scheduler step of the event loop. -/
inductive Event where
  | mountSub (ldr : Loader)
  | rerun (i : Nat) (ldr : Loader)
  | unmount (i : Nat)
  | netRespond (tid : Nat)
  | deliver (tid : Nat)
  deriving DecidableEq, Repr

/-- The transition function of the model. -/
def step (server : String → FetchOutcome) (w : World) : Event → World
  | .mountSub ldr => doMount w ldr
  | .rerun i ldr => doRerun w i ldr
  | .unmount i => doUnmount w i
  | .netRespond tid => doNetRespond server w tid
  | .deliver tid => doDeliver w tid

/-- Run a whole schedule. -/
def run (server : String → FetchOutcome) (w : World) (es : List Event) : World :=
  es.foldl (step server) w

/- Concrete servers and keys used in counterexamples and witnesses. -/

/-- A server that answers every request with the JSON number 1. -/
def serverOne : String → FetchOutcome := fun _ => .success (.num 1)

/-- A server that answers every request with its own key as a JSON string, so
payloads identify the key they were fetched for. -/
def serverEcho : String → FetchOutcome := fun k => .success (.str k)

/-- A server on which every request fails with HTTP status 404. -/
def serverMissing : String → FetchOutcome := fun _ => .badStatus 404

/-- The message of a JSON parse failure. -/
def parseMsg : String := "Unexpected token < in JSON"

/-- A server that answers with an ok status but a body that is not valid
JSON. -/
def serverBadBody : String → FetchOutcome := fun _ => .parseError parseMsg

/-- The key of the global summary route. -/
def gsKey : String := "global_summary.json"

/-- The key of the module catalog route. -/
def modulesKey : String := "modules.json"

theorem insertByNaDesc_perm (x : FeatureCompact) (l : List FeatureCompact) :
    (insertByNaDesc x l).Perm (x :: l) := by
  induction l with
  | nil => simp [insertByNaDesc]
  | cons y ys ih =>
    by_cases h : y.na ≤ x.na
    · simp [insertByNaDesc, h]
    · simp only [insertByNaDesc, if_neg h]
      exact (ih.cons y).trans (List.Perm.swap x y ys)

theorem sortByNaDesc_perm (l : List FeatureCompact) : (sortByNaDesc l).Perm l := by
  induction l with
  | nil => simp [sortByNaDesc]
  | cons x xs ih =>
    exact (insertByNaDesc_perm x (sortByNaDesc xs)).trans (ih.cons x)

theorem insertByNaDesc_sorted (x : FeatureCompact) (l : List FeatureCompact)
    (hl : l.Pairwise (fun a b => b.na ≤ a.na)) :
    (insertByNaDesc x l).Pairwise (fun a b => b.na ≤ a.na) := by
  induction l with
  | nil => simp [insertByNaDesc]
  | cons y ys ih =>
    rcases List.pairwise_cons.mp hl with ⟨hy, hys⟩
    by_cases h : y.na ≤ x.na
    · simp only [insertByNaDesc, if_pos h]
      refine List.pairwise_cons.mpr ⟨?_, hl⟩
      intro b hb
      rcases List.mem_cons.mp hb with hb | hb
      · subst hb; exact h
      · exact le_trans (hy b hb) h
    · simp only [insertByNaDesc, if_neg h]
      refine List.pairwise_cons.mpr ⟨?_, ih hys⟩
      intro b hb
      have hmem := (insertByNaDesc_perm x ys).mem_iff.mp hb
      rcases List.mem_cons.mp hmem with hb' | hb'
      · subst hb'; omega
      · exact hy b hb'

theorem sortByNaDesc_sorted (l : List FeatureCompact) :
    (sortByNaDesc l).Pairwise (fun a b => b.na ≤ a.na) := by
  induction l with
  | nil => simp [sortByNaDesc]
  | cons x xs ih => exact insertByNaDesc_sorted x (sortByNaDesc xs) ih

theorem insertByNaDesc_filter_key (x : FeatureCompact) (l : List FeatureCompact) (k : Int)
    (hl : l.Pairwise (fun a b => b.na ≤ a.na)) :
    (insertByNaDesc x l).filter (fun f => f.na = k)
      = (x :: l).filter (fun f => f.na = k) := by
  induction l with
  | nil => simp [insertByNaDesc]
  | cons y ys ih =>
    rcases List.pairwise_cons.mp hl with ⟨_, hys⟩
    by_cases h : y.na ≤ x.na
    · simp [insertByNaDesc, if_pos h]
    · have hlt : x.na < y.na := by omega
      simp only [insertByNaDesc, if_neg h]
      by_cases hyk : y.na = k
      · have hxk : ¬ x.na = k := by omega
        simp [List.filter_cons, hyk, hxk, ih hys]
      · simp [List.filter_cons, hyk, ih hys]

theorem sortByNaDesc_filter_key (l : List FeatureCompact) (k : Int) :
    (sortByNaDesc l).filter (fun f => f.na = k) = l.filter (fun f => f.na = k) := by
  induction l with
  | nil => simp [sortByNaDesc]
  | cons x xs ih =>
    calc (insertByNaDesc x (sortByNaDesc xs)).filter (fun f => f.na = k)
        = (x :: sortByNaDesc xs).filter (fun f => f.na = k) :=
          insertByNaDesc_filter_key x (sortByNaDesc xs) k (sortByNaDesc_sorted xs)
      _ = (x :: xs).filter (fun f => f.na = k) := by
          simp only [List.filter_cons, ih]

/-- C8: for every per-layer feature array and gene filter string, the filtered
feature list computed by `LayerExplorer` contains exactly the entries whose
top-gene list includes a case-insensitive match for the (normalised) filter
string — every entry when the filter trims to the empty string — sorted by
descending annotation count `na`, with ties kept in original array order
(stable sort).  Exactness is the permutation with the filtered input, order is
the pairwise descending property, and stability is that for each annotation
count the sub-list with that count equals the corresponding sub-list of the
(unsorted) filtered input. -/
theorem filteredFeatures_spec (features : List FeatureCompact) (geneSearch : String) :
    (filteredFeatures features geneSearch).Perm (filteredUnsorted features geneSearch) ∧
    (filteredFeatures features geneSearch).Pairwise (fun a b => b.na ≤ a.na) ∧
    (∀ k : Int, (filteredFeatures features geneSearch).filter (fun f => f.na = k)
      = (filteredUnsorted features geneSearch).filter (fun f => f.na = k)) := by
  refine ⟨sortByNaDesc_perm _, sortByNaDesc_sorted _, fun k => sortByNaDesc_filter_key _ k⟩

/-- Does this event re-run the effect of subscription `i` (a dependency-key
change)?  Used to state properties of subscriptions whose deps never change. -/
def isRerunOf (i : Nat) : Event → Bool
  | .rerun j _ => j = i
  | _ => false

/-- The per-subscription state discipline of `useAsync` for a subscription
whose dependency key never changes, as an inductive invariant over the whole
world: subscription 0 exists, at most one in-flight task belongs to it, and
while such a task exists its state cells are still pristine; its cells satisfy:
while `loading` both `data` and `error` are null, and never are both
non-null. -/
def SubZeroInv (w : World) : Prop :=
  1 ≤ w.nSubs ∧
  (∀ tid tid' t t', w.tasks tid = some t → w.tasks tid' = some t' →
     t.owner = 0 → t'.owner = 0 → tid = tid') ∧
  ∀ s, w.subs 0 = some s →
    (s.loading = true → s.data = none ∧ s.error = none) ∧
    (s.data = none ∨ s.error = none) ∧
    (∀ tid t, w.tasks tid = some t → t.owner = 0 →
       s.data = none ∧ s.error = none ∧ s.loading = true)

/-- A task phase whose processing can never touch the cache or any
subscription other than its owner's: a queued resolution or rejection, or a
request whose response will be a failure (failures are never cached). -/
def quietPhase (server : String → FetchOutcome) : TaskPhase → Prop
  | .awaitingNet key _ => (server key).fails = true
  | .toResolve _ => True
  | .toReject _ => True

/-- Two worlds that agree everywhere except possibly on the state cells of
subscription `A` and on task `tidA`, which — where the two worlds disagree on
it — belongs to `A` and is quiet.  This is the simulation relation behind
error isolation: a failing request for one subscription relates the world in
which its response has been processed to the world in which it has not. -/
structure AgreeExceptAt (server : String → FetchOutcome) (A tidA : Nat)
    (w1 w2 : World) : Prop where
  cache : w1.cache = w2.cache
  netLog : w1.netLog = w2.netLog
  nSubs : w1.nSubs = w2.nSubs
  nextId : w1.nextId = w2.nextId
  subs : ∀ j, j ≠ A → w1.subs j = w2.subs j
  subA_isSome : (w1.subs A).isSome = (w2.subs A).isSome
  subA : ∀ s1 s2, w1.subs A = some s1 → w2.subs A = some s2 →
    s1.loader = s2.loader ∧ s1.mounted = s2.mounted ∧ s1.torndown = s2.torndown
  tasks : ∀ t, t ≠ tidA → w1.tasks t = w2.tasks t
  taskA : w1.tasks tidA = w2.tasks tidA ∨
    ((∀ t, w1.tasks tidA = some t → t.owner = A ∧ quietPhase server t.phase) ∧
     (∀ t, w2.tasks tidA = some t → t.owner = A ∧ quietPhase server t.phase))

/-- C1 counterexample: two consumers mount for the same uncached key while the
first fetch is still in flight; the second call to `fetchJson` finds the cache
still unpopulated and issues its own HTTP GET, so two network requests are
issued for one key — the claim's "at most one network fetch is ever issued for
that key" and "calls made while an earlier fetch for that key is still in
flight issue no network call" are false. -/
theorem fetchJson_inflight_refetch_cex :
    (run serverOne World.init
        [.mountSub (.plain gsKey), .mountSub (.plain gsKey)]).netLog = [gsKey, gsKey] ∧
    ¬ ((run serverOne World.init
        [.mountSub (.plain gsKey), .mountSub (.plain gsKey)]).netLog.count gsKey ≤ 1) := by
  decide

/-- C2 (code bug witness): a consumer mounts for layer 3's features, the
dependency changes to layer 5 while the layer-3 load is pending (the effect
re-run resets `mounted.current` to `true`), and then the layer-3 response
arrives: its `.then` continuation passes the `mounted.current` guard and
writes the layer-3 payload, with `loading = false`, into the state observed
under the layer-5 subscription — the stale result is not suppressed. -/
theorem useAsync_stale_write_on_deps_change :
    (run serverEcho World.init
        [.mountSub (.plain (layerFeaturesKey 3)), .rerun 0 (.plain (layerFeaturesKey 5)),
         .netRespond 0, .deliver 0]).subs 0
      = some ⟨.plain (layerFeaturesKey 5), some (.str (layerFeaturesKey 3)),
          false, none, true, false⟩ := by
  decide

/-- C3 counterexample: the `useLayerCellTypes` subscription for layer 18 (its
loader resolves with `null` without fetching) reaches a state with
`loading = false`, `data = null` and `error = null`: once loading is false,
it is not the case that exactly one of `data`/`error` is non-null. -/
theorem useAsync_tristate_cex :
    (run serverOne World.init [.mountSub (.cellTypes 18), .deliver 0]).subs 0
      = some ⟨.cellTypes 18, none, false, none, true, false⟩ ∧
    ((run serverOne World.init [.mountSub (.cellTypes 18), .deliver 0]).subs 0).map
        (fun s => (s.loading, s.data.isSome, s.error.isSome)) = some (false, false, false) := by
  decide

/-- C5 counterexample: a request whose HTTP status is ok and whose network
exchange completes, but whose body fails to parse as JSON, still makes
`fetchJson` reject (`res.json()` throws and nothing catches it), and the
resulting error message is the parser's, carrying neither the dataset key nor
an HTTP status — so `fetchJson` does not fail *exactly* when the status is
non-success or the request cannot complete. -/
theorem fetchJson_parse_failure_cex :
    serverBadBody modulesKey = .parseError parseMsg ∧
    (run serverBadBody World.init
        [.mountSub (.plain modulesKey), .netRespond 0, .deliver 0]).subs 0
      = some ⟨.plain modulesKey, none, false, some parseMsg, true, false⟩ := by
  decide

/-- C10: for a layer outside 0..17 the `useLayerCellTypes` loader returns
`null` before ever calling `fetchJson`: no network request is issued and the
subscription resolves to `data = null`, `error = null`, `loading = false`. -/
theorem cellTypes_out_of_range (server : String → FetchOutcome) (layer : Int)
    (h : layer < 0 ∨ layer > 17) :
    (run server World.init [.mountSub (.cellTypes layer), .deliver 0]).netLog = [] ∧
    (run server World.init [.mountSub (.cellTypes layer), .deliver 0]).subs 0
      = some ⟨.cellTypes layer, none, false, none, true, false⟩ := by
  have hs : startLoader (fun _ => none) (.cellTypes layer) = (.toResolve none, []) := by
    simp [startLoader, if_pos h]
  constructor <;>
    simp [run, step, doMount, doDeliver, World.init, hs]

/-- Witness for C10 at layer 18. -/
theorem cellTypes_out_of_range_witness :
    ((18 : Int) < 0 ∨ (18 : Int) > 17) ∧
    (run serverOne World.init [.mountSub (.cellTypes 18), .deliver 0]).netLog = [] := by
  exact ⟨by decide, (cellTypes_out_of_range serverOne 18 (by decide)).1⟩

/-- C1 (amended): a `fetchJson` call for a key already present in the cache
issues no network request and resolves to the identical stored value; a call
for an uncached key issues one HTTP GET and, when the response succeeds,
stores the parsed value under the key and resolves to it.  (Calls made while
an earlier fetch for the key is still in flight find the cache unpopulated
and fall into the second case: in-flight requests are not deduplicated.) -/
theorem fetchJson_cache_semantics (server : String → FetchOutcome) (w : World) (key : String) :
    (∀ v, w.cache key = some v →
      (run server w [.mountSub (.plain key)]).netLog = w.netLog ∧
      (run server w [.mountSub (.plain key), .deliver w.nextId]).subs w.nSubs
        = some ⟨.plain key, some v, false, none, true, false⟩) ∧
    (w.cache key = none →
      (run server w [.mountSub (.plain key)]).netLog = w.netLog ++ [key] ∧
      ∀ u, server key = .success u →
        (run server w
            [.mountSub (.plain key), .netRespond w.nextId, .deliver w.nextId]).cache key
          = some u ∧
        (run server w
            [.mountSub (.plain key), .netRespond w.nextId, .deliver w.nextId]).subs w.nSubs
          = some ⟨.plain key, some u, false, none, true, false⟩) := by
  constructor
  · intro v hv
    have hs : startLoader w.cache (.plain key) = (.toResolve (some v), []) := by
      simp [startLoader, hv]
    constructor
    · simp [run, step, doMount, hs]
    · simp [run, step, doMount, doDeliver, hs]
  · intro hv
    have hs : startLoader w.cache (.plain key) = (.awaitingNet key false, [key]) := by
      simp [startLoader, hv]
    refine ⟨by simp [run, step, doMount, hs], ?_⟩
    intro u hu
    constructor
    · simp [run, step, doMount, doNetRespond, doDeliver, hs, hu]
    · simp [run, step, doMount, doNetRespond, doDeliver, hs, hu]

/-- Witness for C1 (amended): on a fresh world, fetching the global summary
stores the payload; a second consumer mounting afterwards issues no further
GET. -/
theorem fetchJson_cache_semantics_witness :
    (run serverOne World.init
        [.mountSub (.plain gsKey), .netRespond 0, .deliver 0]).cache gsKey
      = some (.num 1) ∧
    (run serverOne
        (run serverOne World.init [.mountSub (.plain gsKey), .netRespond 0, .deliver 0])
        [.mountSub (.plain gsKey)]).netLog
      = (run serverOne World.init
          [.mountSub (.plain gsKey), .netRespond 0, .deliver 0]).netLog := by
  have h1 := fetchJson_cache_semantics serverOne World.init gsKey
  have h2 := fetchJson_cache_semantics serverOne
    (run serverOne World.init [.mountSub (.plain gsKey), .netRespond 0, .deliver 0]) gsKey
  exact ⟨((h1.2 (by decide)).2 (.num 1) (by decide)).1,
    (h2.1 (.num 1) (by decide)).1⟩

/-- C5 (amended): `fetchJson` fails exactly when the HTTP status is
non-success, the network request cannot complete, or the response body fails
to parse as JSON; in the bad-status case the error message carries the dataset
key and the HTTP status (`Failed to load <key>: <status>`), while in the
network-failure and parse-failure cases the underlying error is surfaced
unchanged.  Stated for a fresh consumer of an uncached key, observing the
terminal subscription state. -/
theorem fetchJson_failure_semantics (server : String → FetchOutcome) (w : World)
    (key : String) (hmiss : w.cache key = none) :
    (∀ v, server key = .success v →
      (run server w
          [.mountSub (.plain key), .netRespond w.nextId, .deliver w.nextId]).subs w.nSubs
        = some ⟨.plain key, some v, false, none, true, false⟩) ∧
    (∀ c, server key = .badStatus c →
      (run server w
          [.mountSub (.plain key), .netRespond w.nextId, .deliver w.nextId]).subs w.nSubs
        = some ⟨.plain key, none, false, some (failMsg key c), true, false⟩) ∧
    (∀ m, server key = .netError m →
      (run server w
          [.mountSub (.plain key), .netRespond w.nextId, .deliver w.nextId]).subs w.nSubs
        = some ⟨.plain key, none, false, some m, true, false⟩) ∧
    (∀ m, server key = .parseError m →
      (run server w
          [.mountSub (.plain key), .netRespond w.nextId, .deliver w.nextId]).subs w.nSubs
        = some ⟨.plain key, none, false, some m, true, false⟩) := by
  have hs : startLoader w.cache (.plain key) = (.awaitingNet key false, [key]) := by
    simp [startLoader, hmiss]
  refine ⟨fun v hu => ?_, fun c hu => ?_, fun m hu => ?_, fun m hu => ?_⟩ <;>
    simp [run, step, doMount, doNetRespond, doDeliver, hs, hu]

/-- Witness for C5 (amended): a 404 on the module catalog surfaces the
`Failed to load` message carrying key and status. -/
theorem fetchJson_failure_semantics_witness :
    (run serverMissing World.init
        [.mountSub (.plain modulesKey), .netRespond 0, .deliver 0]).subs 0
      = some ⟨.plain modulesKey, none, false, some (failMsg modulesKey 404), true, false⟩ := by
  exact (fetchJson_failure_semantics serverMissing World.init modulesKey (by decide)).2.1
    404 (by decide)

/-- C6: a failed fetch is never cached.  Processing the response of an
in-flight request whose outcome is a failure (bad status, network failure or
parse failure) leaves the cache untouched; only a successful parse stores the
value under the key; delivering any promise continuation never touches the
cache; and a later fresh call for a key that is (still) uncached attempts the
network fetch again. -/
theorem fetchJson_failure_not_cached (server : String → FetchOutcome) (w : World)
    (tid owner : Nat) (key : String) (opt : Bool)
    (htask : w.tasks tid = some ⟨owner, .awaitingNet key opt⟩) :
    ((server key).fails = true → (step server w (.netRespond tid)).cache = w.cache) ∧
    (∀ v, server key = .success v →
      (step server w (.netRespond tid)).cache key = some v) ∧
    (∀ tid', (doDeliver w tid').cache = w.cache) ∧
    (w.cache key = none →
      (step server w (.mountSub (.plain key))).netLog = w.netLog ++ [key]) := by
  refine ⟨?_, ?_, ?_, ?_⟩
  · intro hf
    rcases hout : server key with v | c | m | m
    · rw [hout] at hf; simp [FetchOutcome.fails] at hf
    all_goals simp [step, doNetRespond, htask, hout]
  · intro v hu
    simp [step, doNetRespond, htask, hu]
  · intro tid'
    rcases ht : w.tasks tid' with _ | ⟨o, ph⟩
    · simp [doDeliver, ht]
    · cases ph with
      | awaitingNet k opt2 => simp [doDeliver, ht]
      | toResolve d =>
        rcases hsub : w.subs o with _ | s
        · simp [doDeliver, ht, hsub]
        · by_cases hm : s.mounted = true <;> simp [doDeliver, ht, hsub, hm]
      | toReject m =>
        rcases hsub : w.subs o with _ | s
        · simp [doDeliver, ht, hsub]
        · by_cases hm : s.mounted = true <;> simp [doDeliver, ht, hsub, hm]
  · intro hmiss
    simp [step, doMount, startLoader, hmiss]

/-- Witness for C6: a 404 for the global summary leaves the cache untouched,
and remounting fetches again. -/
theorem fetchJson_failure_not_cached_witness :
    ((step serverMissing (run serverMissing World.init [.mountSub (.plain gsKey)])
        (.netRespond 0)).cache
      = (run serverMissing World.init [.mountSub (.plain gsKey)]).cache) ∧
    ((step serverMissing (run serverMissing World.init [.mountSub (.plain gsKey)])
        (.mountSub (.plain gsKey))).netLog
      = (run serverMissing World.init [.mountSub (.plain gsKey)]).netLog ++ [gsKey]) := by
  have h := fetchJson_failure_not_cached serverMissing
    (run serverMissing World.init [.mountSub (.plain gsKey)]) 0 0 gsKey false (by decide)
  exact ⟨h.1 (by decide), h.2.2.2 (by decide)⟩

/-- C7: for a layer in range, a fetch failure on the per-layer cell-type route
is caught by the `useLayerCellTypes` loader and coerced to `null`: the
subscription resolves to `data = null`, `error = null`, `loading = false` —
never an error state. -/
theorem cellTypes_failure_absent (server : String → FetchOutcome) (layer : Int)
    (hlo : 0 ≤ layer) (hhi : layer ≤ 17)
    (hfail : (server (cellTypesKey layer)).fails = true) :
    (run server World.init
        [.mountSub (.cellTypes layer), .netRespond 0, .deliver 0]).subs 0
      = some ⟨.cellTypes layer, none, false, none, true, false⟩ := by
  have hif : ¬ (layer < 0 ∨ layer > 17) := by omega
  have hs : startLoader (fun _ => none) (.cellTypes layer)
      = (.awaitingNet (cellTypesKey layer) true, [cellTypesKey layer]) := by
    simp [startLoader, hif]
  rcases hout : server (cellTypesKey layer) with v | c | m | m
  · rw [hout] at hfail; simp [FetchOutcome.fails] at hfail
  all_goals
    simp [run, step, doMount, doNetRespond, doDeliver, World.init, hs, hout]

/-- Witness for C7 at layer 3 with a 404 server. -/
theorem cellTypes_failure_absent_witness :
    (run serverMissing World.init
        [.mountSub (.cellTypes 3), .netRespond 0, .deliver 0]).subs 0
      = some ⟨.cellTypes 3, none, false, none, true, false⟩ := by
  exact cellTypes_failure_absent serverMissing 3 (by decide) (by decide) (by decide)

/-- Processing a network response never touches the subscriptions, the GET
log, the subscription counter or the id counter — only the cache and the
task's phase. -/
theorem doNetRespond_frame (server : String → FetchOutcome) (w : World) (tid : Nat) :
    (doNetRespond server w tid).subs = w.subs ∧
    (doNetRespond server w tid).nSubs = w.nSubs ∧
    (doNetRespond server w tid).netLog = w.netLog ∧
    (doNetRespond server w tid).nextId = w.nextId := by
  rcases htt : w.tasks tid with _ | ⟨o, ph⟩
  · simp [doNetRespond, htt]
  · cases ph with
    | awaitingNet k opt =>
      rcases hout : server k with v | c | m | m <;> simp [doNetRespond, htt, hout]
    | toResolve d => simp [doNetRespond, htt]
    | toReject m => simp [doNetRespond, htt]

/-- Delivering a promise continuation never touches the cache, the GET log,
the subscription counter or the id counter. -/
theorem doDeliver_frame (w : World) (tid : Nat) :
    (doDeliver w tid).cache = w.cache ∧
    (doDeliver w tid).netLog = w.netLog ∧
    (doDeliver w tid).nSubs = w.nSubs ∧
    (doDeliver w tid).nextId = w.nextId := by
  rcases htt : w.tasks tid with _ | ⟨o, ph⟩
  · simp [doDeliver, htt]
  · cases ph with
    | awaitingNet k opt => simp [doDeliver, htt]
    | toResolve d =>
      rcases hsub : w.subs o with _ | s
      · simp [doDeliver, htt, hsub]
      · by_cases hm : s.mounted = true <;> simp [doDeliver, htt, hsub, hm]
    | toReject m =>
      rcases hsub : w.subs o with _ | s
      · simp [doDeliver, htt, hsub]
      · by_cases hm : s.mounted = true <;> simp [doDeliver, htt, hsub, hm]

/-- A delivery aimed at an unmounted owner (and any delivery for another
subscription) leaves the state of an unmounted subscription untouched: the
`if (mounted.current)` guard fails. -/
theorem doDeliver_subs_unmounted (w : World) (tid i : Nat) (s : Sub)
    (hs : w.subs i = some s) (hm : s.mounted = false) :
    (doDeliver w tid).subs i = some s := by
  rcases htt : w.tasks tid with _ | ⟨o, ph⟩
  · simp [doDeliver, htt, hs]
  · cases ph with
    | awaitingNet k opt => simp [doDeliver, htt, hs]
    | toResolve d =>
      rcases hsub : w.subs o with _ | s2
      · simp [doDeliver, htt, hsub, hs]
      · by_cases ho : o = i
        · subst ho
          rw [hs] at hsub
          injection hsub with h2
          subst h2
          simp [doDeliver, htt, hs, hm]
        · have hio : i ≠ o := fun hh => ho hh.symm
          by_cases hm2 : s2.mounted = true <;>
            simp [doDeliver, htt, hsub, hm2, hio, hs]
    | toReject m =>
      rcases hsub : w.subs o with _ | s2
      · simp [doDeliver, htt, hsub, hs]
      · by_cases ho : o = i
        · subst ho
          rw [hs] at hsub
          injection hsub with h2
          subst h2
          simp [doDeliver, htt, hs, hm]
        · have hio : i ≠ o := fun hh => ho hh.symm
          by_cases hm2 : s2.mounted = true <;>
            simp [doDeliver, htt, hsub, hm2, hio, hs]

/-- One step preserves the frozen state of a torn-down subscription. -/
theorem step_keeps_torndown (server : String → FetchOutcome) (w : World) (e : Event)
    (i : Nat) (s : Sub) (hi : i < w.nSubs) (hs : w.subs i = some s)
    (ht : s.torndown = true) (hm : s.mounted = false) :
    i < (step server w e).nSubs ∧ (step server w e).subs i = some s := by
  cases e with
  | mountSub ldr =>
    have hne : i ≠ w.nSubs := Nat.ne_of_lt hi
    refine ⟨?_, ?_⟩
    · simp [step, doMount]; omega
    · simp [step, doMount, hne, hs]
  | rerun j ldr =>
    rcases hj : w.subs j with _ | s2
    · simp only [step, doRerun, hj]; exact ⟨hi, hs⟩
    · by_cases htd : s2.torndown = true
      · simp only [step, doRerun, hj, htd, if_pos]; exact ⟨hi, hs⟩
      · have hij : i ≠ j := by
          intro hh
          subst hh
          rw [hs] at hj
          injection hj with h2
          subst h2
          exact htd ht
        simp [step, doRerun, hj, htd, hij, hs]
        omega
  | unmount j =>
    rcases hj : w.subs j with _ | s2
    · simp only [step, doUnmount, hj]; exact ⟨hi, hs⟩
    · by_cases hji : j = i
      · subst hji
        rw [hs] at hj
        injection hj with h2
        subst h2
        have heq : { s with mounted := false, torndown := true } = s := by
          cases s
          simp only [Sub.mk.injEq] at *
          simp_all
        refine ⟨?_, ?_⟩
        · simp [step, doUnmount, hs]; omega
        · simp [step, doUnmount, hs, heq]
      · have hij : i ≠ j := fun hh => hji hh.symm
        refine ⟨?_, ?_⟩
        · simp [step, doUnmount, hj]; omega
        · simp [step, doUnmount, hj, hij, hs]
  | netRespond tid =>
    have hf := doNetRespond_frame server w tid
    refine ⟨?_, ?_⟩
    · show i < (doNetRespond server w tid).nSubs
      rw [hf.2.1]; exact hi
    · show (doNetRespond server w tid).subs i = some s
      rw [hf.1]; exact hs
  | deliver tid =>
    have hf := doDeliver_frame w tid
    refine ⟨?_, ?_⟩
    · show i < (doDeliver w tid).nSubs
      rw [hf.2.2.1]; exact hi
    · exact doDeliver_subs_unmounted w tid i s hs hm

/-- Iterated version of `step_keeps_torndown`. -/
theorem run_keeps_torndown (server : String → FetchOutcome) :
    ∀ (es : List Event) (w : World) (i : Nat) (s : Sub),
      i < w.nSubs → w.subs i = some s → s.torndown = true → s.mounted = false →
      i < (run server w es).nSubs ∧ (run server w es).subs i = some s := by
  intro es
  induction es with
  | nil => intro w i s hi hs _ _; exact ⟨hi, hs⟩
  | cons e es ih =>
    intro w i s hi hs ht hm
    have hstep := step_keeps_torndown server w e i s hi hs ht hm
    exact ih (step server w e) i s hstep.1 hstep.2 ht hm

/-- C4: teardown safety.  After a consumer is finally unmounted
(`mounted.current = false`, and React never re-runs its effect), no later
scheduler activity — in particular the completion and delivery of its still
pending load, successful or failed — changes its state cells: its `Sub` record
is literally frozen, so no `setData`/`setError`/`setLoading` takes effect
after teardown.  (In the model every continuation is total: the
`if (mounted.current)` guard simply makes the delivery a no-op, mirroring
that no exception is thrown.) -/
theorem useAsync_teardown_frozen (server : String → FetchOutcome) (w : World)
    (i : Nat) (s : Sub) (hi : i < w.nSubs) (hs : w.subs i = some s)
    (ht : s.torndown = true) (hm : s.mounted = false) (es : List Event) :
    (run server w es).subs i = some s :=
  (run_keeps_torndown server es w i s hi hs ht hm).2

/-- Witness for C4: a consumer of the global summary unmounts while its load
is in flight; the response then arrives and is delivered, and the consumer's
state is unchanged from the moment of teardown. -/
theorem useAsync_teardown_frozen_witness :
    (run serverOne
        (run serverOne World.init [.mountSub (.plain gsKey), .unmount 0])
        [.netRespond 0, .deliver 0]).subs 0
      = some ⟨.plain gsKey, none, true, none, false, true⟩ := by
  exact useAsync_teardown_frozen serverOne
    (run serverOne World.init [.mountSub (.plain gsKey), .unmount 0]) 0
    ⟨.plain gsKey, none, true, none, false, true⟩
    (by decide) (by decide) (by decide) (by decide) [.netRespond 0, .deliver 0]

/-- `SubZeroInv` survives adding a fresh task owned by a non-zero
subscription, as long as subscription 0's cells and the old tasks are kept. -/
theorem subZeroInv_of_newTask (w : World) (j : Nat) (hj : j ≠ 0) (ph : TaskPhase)
    (w' : World) (hn : 1 ≤ w'.nSubs) (hsubs0 : w'.subs 0 = w.subs 0)
    (htasks : w'.tasks = fun t => if t = w.nextId then some ⟨j, ph⟩ else w.tasks t)
    (hinv : SubZeroInv w) : SubZeroInv w' := by
  obtain ⟨h1, h2, h3⟩ := hinv
  refine ⟨hn, ?_, ?_⟩
  · intro tid tid' t t' htid htid' ho ho'
    simp only [htasks] at htid htid'
    by_cases e1 : tid = w.nextId
    · rw [if_pos e1] at htid
      injection htid with hX
      rw [← hX] at ho
      simp at ho
      exact absurd ho hj
    · rw [if_neg e1] at htid
      by_cases e2 : tid' = w.nextId
      · rw [if_pos e2] at htid'
        injection htid' with hX
        rw [← hX] at ho'
        simp at ho'
        exact absurd ho' hj
      · rw [if_neg e2] at htid'
        exact h2 _ _ _ _ htid htid' ho ho'
  · intro s hsub
    rw [hsubs0] at hsub
    obtain ⟨c1, c2, c3⟩ := h3 s hsub
    refine ⟨c1, c2, ?_⟩
    intro tid t htid ho
    simp only [htasks] at htid
    by_cases e1 : tid = w.nextId
    · rw [if_pos e1] at htid
      injection htid with hX
      rw [← hX] at ho
      simp at ho
      exact absurd ho hj
    · rw [if_neg e1] at htid
      exact c3 tid t htid ho

/-- `SubZeroInv` survives changing the phase of an existing task in place
(same owner), as long as subscription 0's cells are kept. -/
theorem subZeroInv_of_taskUpdate (w : World) (tid o : Nat) (ph ph' : TaskPhase)
    (htt : w.tasks tid = some ⟨o, ph⟩) (w' : World)
    (hsubs0 : w'.subs 0 = w.subs 0) (hnsubs : w'.nSubs = w.nSubs)
    (htasks : w'.tasks = fun t => if t = tid then some ⟨o, ph'⟩ else w.tasks t)
    (hinv : SubZeroInv w) : SubZeroInv w' := by
  obtain ⟨h1, h2, h3⟩ := hinv
  refine ⟨by rw [hnsubs]; exact h1, ?_, ?_⟩
  · intro tid2 tid3 t t' htid htid' ho ho'
    simp only [htasks] at htid htid'
    by_cases e1 : tid2 = tid
    · by_cases e2 : tid3 = tid
      · rw [e1, e2]
      · rw [if_pos e1] at htid
        injection htid with hX
        have ho0 : o = 0 := by rw [← hX] at ho; simpa using ho
        rw [if_neg e2] at htid'
        exact e1.trans (h2 tid tid3 ⟨o, ph⟩ t' htt htid' (by simpa using ho0) ho')
    · rw [if_neg e1] at htid
      by_cases e2 : tid3 = tid
      · rw [if_pos e2] at htid'
        injection htid' with hX
        have ho0 : o = 0 := by rw [← hX] at ho'; simpa using ho'
        exact (h2 tid2 tid t ⟨o, ph⟩ htid htt ho (by simpa using ho0)).trans e2.symm
      · rw [if_neg e2] at htid'
        exact h2 _ _ _ _ htid htid' ho ho'
  · intro s hsub
    rw [hsubs0] at hsub
    obtain ⟨c1, c2, c3⟩ := h3 s hsub
    refine ⟨c1, c2, ?_⟩
    intro tid2 t htid ho
    simp only [htasks] at htid
    by_cases e1 : tid2 = tid
    · rw [if_pos e1] at htid
      injection htid with hX
      have ho0 : o = 0 := by rw [← hX] at ho; simpa using ho
      exact c3 tid ⟨o, ph⟩ htt (by simpa using ho0)
    · rw [if_neg e1] at htid
      exact c3 tid2 t htid ho

/-- `SubZeroInv` survives removing a task, as long as subscription 0's cells
are kept. -/
theorem subZeroInv_of_taskRemove (w : World) (tid : Nat) (w' : World)
    (hsubs0 : w'.subs 0 = w.subs 0) (hnsubs : w'.nSubs = w.nSubs)
    (htasks : w'.tasks = fun t => if t = tid then none else w.tasks t)
    (hinv : SubZeroInv w) : SubZeroInv w' := by
  obtain ⟨h1, h2, h3⟩ := hinv
  refine ⟨by rw [hnsubs]; exact h1, ?_, ?_⟩
  · intro tid2 tid3 t t' htid htid' ho ho'
    simp only [htasks] at htid htid'
    by_cases e1 : tid2 = tid
    · rw [if_pos e1] at htid; exact absurd htid (by simp)
    · rw [if_neg e1] at htid
      by_cases e2 : tid3 = tid
      · rw [if_pos e2] at htid'; exact absurd htid' (by simp)
      · rw [if_neg e2] at htid'
        exact h2 _ _ _ _ htid htid' ho ho'
  · intro s hsub
    rw [hsubs0] at hsub
    obtain ⟨c1, c2, c3⟩ := h3 s hsub
    refine ⟨c1, c2, ?_⟩
    intro tid2 t htid ho
    simp only [htasks] at htid
    by_cases e1 : tid2 = tid
    · rw [if_pos e1] at htid; exact absurd htid (by simp)
    · rw [if_neg e1] at htid
      exact c3 tid2 t htid ho

/-- One step that is not an effect re-run of subscription 0 preserves
`SubZeroInv`. -/
theorem subZeroInv_step (server : String → FetchOutcome) (w : World) (e : Event)
    (hinv : SubZeroInv w) (hno : isRerunOf 0 e = false) :
    SubZeroInv (step server w e) := by
  obtain ⟨h1, h2, h3⟩ := hinv
  cases e with
  | mountSub ldr =>
    refine subZeroInv_of_newTask w w.nSubs (by omega) (startLoader w.cache ldr).1 _ ?_ ?_ ?_
      ⟨h1, h2, h3⟩
    · simp [step, doMount]
    · have hne : (0 : Nat) ≠ w.nSubs := by omega
      simp [step, doMount, hne]
    · rfl
  | rerun j ldr =>
    have hj0 : j ≠ 0 := by simpa [isRerunOf] using hno
    rcases hsj : w.subs j with _ | s2
    · simp only [step, doRerun, hsj]
      exact ⟨h1, h2, h3⟩
    · by_cases htd : s2.torndown = true
      · simp only [step, doRerun, hsj, htd, if_pos]
        exact ⟨h1, h2, h3⟩
      · have h0j : (0 : Nat) ≠ j := fun hh => hj0 hh.symm
        refine subZeroInv_of_newTask w j hj0 (startLoader w.cache ldr).1 _ ?_ ?_ ?_
          ⟨h1, h2, h3⟩
        · simp [step, doRerun, hsj, htd]
          exact h1
        · simp [step, doRerun, hsj, htd, h0j]
        · simp [step, doRerun, hsj, htd]
  | unmount j =>
    rcases hsj : w.subs j with _ | s2
    · simp only [step, doUnmount, hsj]
      exact ⟨h1, h2, h3⟩
    · by_cases hj0 : j = 0
      · subst hj0
        refine ⟨by simpa [step, doUnmount, hsj] using h1, ?_, ?_⟩
        · intro tid tid' t t' htid htid' ho ho'
          simp only [step, doUnmount, hsj] at htid htid'
          exact h2 _ _ _ _ htid htid' ho ho'
        · intro s hsub
          simp only [step, doUnmount, hsj] at hsub
          rw [if_true] at hsub
          injection hsub with hX
          obtain ⟨c1, c2, c3⟩ := h3 s2 hsj
          rw [← hX]
          refine ⟨c1, c2, ?_⟩
          intro tid t htid ho
          simp only [step, doUnmount, hsj] at htid
          exact c3 tid t htid ho
      · have h0j : (0 : Nat) ≠ j := fun hh => hj0 hh.symm
        refine ⟨by simpa [step, doUnmount, hsj] using h1, ?_, ?_⟩
        · intro tid tid' t t' htid htid' ho ho'
          simp only [step, doUnmount, hsj] at htid htid'
          exact h2 _ _ _ _ htid htid' ho ho'
        · intro s hsub
          simp only [step, doUnmount, hsj] at hsub
          rw [if_neg h0j] at hsub
          obtain ⟨c1, c2, c3⟩ := h3 s hsub
          refine ⟨c1, c2, ?_⟩
          intro tid t htid ho
          simp only [step, doUnmount, hsj] at htid
          exact c3 tid t htid ho
  | netRespond tid =>
    rcases htt : w.tasks tid with _ | ⟨o, ph⟩
    · simp only [step, doNetRespond, htt]
      exact ⟨h1, h2, h3⟩
    · cases ph with
      | toResolve d =>
        simp only [step, doNetRespond, htt]
        exact ⟨h1, h2, h3⟩
      | toReject m =>
        simp only [step, doNetRespond, htt]
        exact ⟨h1, h2, h3⟩
      | awaitingNet k opt =>
        rcases hout : server k with v | c | m2 | m2
        · exact subZeroInv_of_taskUpdate w tid o (.awaitingNet k opt) (.toResolve (some v))
            htt _ (by simp [step, doNetRespond, htt, hout])
            (by simp [step, doNetRespond, htt, hout])
            (by simp [step, doNetRespond, htt, hout]) ⟨h1, h2, h3⟩
        · exact subZeroInv_of_taskUpdate w tid o (.awaitingNet k opt)
            (if opt then .toResolve none else .toReject (failMsg k c))
            htt _ (by simp [step, doNetRespond, htt, hout])
            (by simp [step, doNetRespond, htt, hout])
            (by simp [step, doNetRespond, htt, hout]) ⟨h1, h2, h3⟩
        · exact subZeroInv_of_taskUpdate w tid o (.awaitingNet k opt)
            (if opt then .toResolve none else .toReject m2)
            htt _ (by simp [step, doNetRespond, htt, hout])
            (by simp [step, doNetRespond, htt, hout])
            (by simp [step, doNetRespond, htt, hout]) ⟨h1, h2, h3⟩
        · exact subZeroInv_of_taskUpdate w tid o (.awaitingNet k opt)
            (if opt then .toResolve none else .toReject m2)
            htt _ (by simp [step, doNetRespond, htt, hout])
            (by simp [step, doNetRespond, htt, hout])
            (by simp [step, doNetRespond, htt, hout]) ⟨h1, h2, h3⟩
  | deliver tid =>
    rcases htt : w.tasks tid with _ | ⟨o, ph⟩
    · simp only [step, doDeliver, htt]
      exact ⟨h1, h2, h3⟩
    · cases ph with
      | awaitingNet k opt =>
        simp only [step, doDeliver, htt]
        exact ⟨h1, h2, h3⟩
      | toResolve d =>
        rcases hsub : w.subs o with _ | s2
        · exact subZeroInv_of_taskRemove w tid _
            (by simp [step, doDeliver, htt, hsub])
            (by simp [step, doDeliver, htt, hsub])
            (by simp [step, doDeliver, htt, hsub]) ⟨h1, h2, h3⟩
        · by_cases hm : s2.mounted = true
          · by_cases ho0 : o = 0
            · subst ho0
              obtain ⟨c1, c2, c3⟩ := h3 s2 hsub
              obtain ⟨hd, he, hl⟩ := c3 tid ⟨0, .toResolve d⟩ htt rfl
              refine ⟨by simpa [step, doDeliver, htt, hsub, hm] using h1, ?_, ?_⟩
              · intro tid2 tid3 t t' htid htid' hot hot'
                simp only [step, doDeliver, htt, hsub, hm, if_true] at htid htid'
                by_cases e1 : tid2 = tid
                · rw [if_pos e1] at htid; exact absurd htid (by simp)
                · rw [if_neg e1] at htid
                  by_cases e2 : tid3 = tid
                  · rw [if_pos e2] at htid'; exact absurd htid' (by simp)
                  · rw [if_neg e2] at htid'
                    exact h2 _ _ _ _ htid htid' hot hot'
              · intro s hsub'
                simp only [step, doDeliver, htt, hsub, hm, if_true] at hsub'
                injection hsub' with hX
                rw [← hX]
                refine ⟨fun h => ?_, Or.inr (by simpa using he), ?_⟩
                · simp at h
                · intro tid2 t htid hot
                  simp only [step, doDeliver, htt, hsub, hm, if_true] at htid
                  by_cases e1 : tid2 = tid
                  · rw [if_pos e1] at htid; exact absurd htid (by simp)
                  · rw [if_neg e1] at htid
                    exact absurd (h2 tid2 tid t ⟨0, .toResolve d⟩ htid htt hot rfl) e1
            · have h0o : (0 : Nat) ≠ o := fun hh => ho0 hh.symm
              exact subZeroInv_of_taskRemove w tid _
                (by simp [step, doDeliver, htt, hsub, hm, h0o])
                (by simp [step, doDeliver, htt, hsub, hm])
                (by simp [step, doDeliver, htt, hsub, hm]) ⟨h1, h2, h3⟩
          · exact subZeroInv_of_taskRemove w tid _
              (by simp [step, doDeliver, htt, hsub, hm])
              (by simp [step, doDeliver, htt, hsub, hm])
              (by simp [step, doDeliver, htt, hsub, hm]) ⟨h1, h2, h3⟩
      | toReject m =>
        rcases hsub : w.subs o with _ | s2
        · exact subZeroInv_of_taskRemove w tid _
            (by simp [step, doDeliver, htt, hsub])
            (by simp [step, doDeliver, htt, hsub])
            (by simp [step, doDeliver, htt, hsub]) ⟨h1, h2, h3⟩
        · by_cases hm : s2.mounted = true
          · by_cases ho0 : o = 0
            · subst ho0
              obtain ⟨c1, c2, c3⟩ := h3 s2 hsub
              obtain ⟨hd, he, hl⟩ := c3 tid ⟨0, .toReject m⟩ htt rfl
              refine ⟨by simpa [step, doDeliver, htt, hsub, hm] using h1, ?_, ?_⟩
              · intro tid2 tid3 t t' htid htid' hot hot'
                simp only [step, doDeliver, htt, hsub, hm, if_true] at htid htid'
                by_cases e1 : tid2 = tid
                · rw [if_pos e1] at htid; exact absurd htid (by simp)
                · rw [if_neg e1] at htid
                  by_cases e2 : tid3 = tid
                  · rw [if_pos e2] at htid'; exact absurd htid' (by simp)
                  · rw [if_neg e2] at htid'
                    exact h2 _ _ _ _ htid htid' hot hot'
              · intro s hsub'
                simp only [step, doDeliver, htt, hsub, hm, if_true] at hsub'
                injection hsub' with hX
                rw [← hX]
                refine ⟨fun h => ?_, Or.inl (by simpa using hd), ?_⟩
                · simp at h
                · intro tid2 t htid hot
                  simp only [step, doDeliver, htt, hsub, hm, if_true] at htid
                  by_cases e1 : tid2 = tid
                  · rw [if_pos e1] at htid; exact absurd htid (by simp)
                  · rw [if_neg e1] at htid
                    exact absurd (h2 tid2 tid t ⟨0, .toReject m⟩ htid htt hot rfl) e1
            · have h0o : (0 : Nat) ≠ o := fun hh => ho0 hh.symm
              exact subZeroInv_of_taskRemove w tid _
                (by simp [step, doDeliver, htt, hsub, hm, h0o])
                (by simp [step, doDeliver, htt, hsub, hm])
                (by simp [step, doDeliver, htt, hsub, hm]) ⟨h1, h2, h3⟩
          · exact subZeroInv_of_taskRemove w tid _
              (by simp [step, doDeliver, htt, hsub, hm])
              (by simp [step, doDeliver, htt, hsub, hm])
              (by simp [step, doDeliver, htt, hsub, hm]) ⟨h1, h2, h3⟩

/-- Iterated preservation of `SubZeroInv`. -/
theorem subZeroInv_run (server : String → FetchOutcome) :
    ∀ (es : List Event) (w : World), SubZeroInv w →
      (∀ e ∈ es, isRerunOf 0 e = false) → SubZeroInv (run server w es) := by
  intro es
  induction es with
  | nil => intro w hw _; exact hw
  | cons e es ih =>
    intro w hw hno
    exact ih (step server w e)
      (subZeroInv_step server w e hw (hno e (by simp)))
      (fun e2 he2 => hno e2 (by simp [he2]))

/-- C3 (amended): for a subscription whose dependency key never changes
(mounted once, never re-run), in every reachable state: while `loading` is
true both `data` and `error` are null, and at most one of `data`/`error` is
ever non-null.  (The original "exactly one non-null once loading is false"
is refuted by `useAsync_tristate_cex`: a loader that resolves to `null` — the
optional cell-types route — ends with `loading = false` and both cells null;
and after a dependency change `data` survives while `loading` is true.) -/
theorem useAsync_state_discipline (server : String → FetchOutcome) (ldr : Loader)
    (es : List Event) (hno : ∀ e ∈ es, isRerunOf 0 e = false) (s : Sub)
    (hs : (run server (step server World.init (.mountSub ldr)) es).subs 0 = some s) :
    (s.loading = true → s.data = none ∧ s.error = none) ∧
    (s.data = none ∨ s.error = none) := by
  have hinv0 : SubZeroInv (step server World.init (.mountSub ldr)) := by
    refine ⟨by simp [step, doMount, World.init], ?_, ?_⟩
    · intro tid tid' t t' htid htid' ho ho'
      simp only [step, doMount, World.init] at htid htid'
      by_cases e1 : tid = 0
      · by_cases e2 : tid' = 0
        · rw [e1, e2]
        · rw [if_neg e2] at htid'; exact absurd htid' (by simp)
      · rw [if_neg e1] at htid; exact absurd htid (by simp)
    · intro s2 hsub
      simp only [step, doMount, World.init] at hsub
      rw [if_true] at hsub
      injection hsub with hX
      rw [← hX]
      refine ⟨fun _ => ⟨rfl, rfl⟩, Or.inl rfl, fun tid t _ _ => ⟨rfl, rfl, rfl⟩⟩
  have hinv := subZeroInv_run server es (step server World.init (.mountSub ldr)) hinv0 hno
  obtain ⟨-, -, h3⟩ := hinv
  obtain ⟨c1, c2, -⟩ := h3 s hs
  exact ⟨c1, c2⟩

/-- Witness for C3 (amended): the layer-18 cell-types subscription after its
null resolution: loading is over and both cells are null (at most one
non-null). -/
theorem useAsync_state_discipline_witness :
    ((false = true → (none : Option Json) = none ∧ (none : Option String) = none) ∧
      ((none : Option Json) = none ∨ (none : Option String) = none)) := by
  have h := useAsync_state_discipline serverOne (.cellTypes 18) [.deliver 0]
    (by decide) ⟨.cellTypes 18, none, false, none, true, false⟩ (by decide)
  exact h

/-- Mirror step: processing the response of a task on which the two related
worlds agree preserves the relation. -/
theorem agree_respond_mirror (server : String → FetchOutcome) (A tidA : Nat)
    (w1 w2 : World) (h : AgreeExceptAt server A tidA w1 w2) (t : Nat)
    (heqt : w1.tasks t = w2.tasks t) :
    AgreeExceptAt server A tidA (doNetRespond server w1 t) (doNetRespond server w2 t) := by
  rcases hv : w2.tasks t with _ | ⟨o, ph⟩
  · have hv1 : w1.tasks t = none := heqt.trans hv
    rw [show doNetRespond server w1 t = w1 from by simp [doNetRespond, hv1],
      show doNetRespond server w2 t = w2 from by simp [doNetRespond, hv]]
    exact h
  · have hv1 : w1.tasks t = some ⟨o, ph⟩ := heqt.trans hv
    cases ph with
    | toResolve d =>
      rw [show doNetRespond server w1 t = w1 from by simp [doNetRespond, hv1],
        show doNetRespond server w2 t = w2 from by simp [doNetRespond, hv]]
      exact h
    | toReject m =>
      rw [show doNetRespond server w1 t = w1 from by simp [doNetRespond, hv1],
        show doNetRespond server w2 t = w2 from by simp [doNetRespond, hv]]
      exact h
    | awaitingNet k opt =>
      have hT : ∀ ph' : TaskPhase,
          AgreeExceptAt server A tidA
            { w1 with tasks := fun t2 => if t2 = t then some ⟨o, ph'⟩ else w1.tasks t2 }
            { w2 with tasks := fun t2 => if t2 = t then some ⟨o, ph'⟩ else w2.tasks t2 } := by
        intro ph'
        refine ⟨h.cache, h.netLog, h.nSubs, h.nextId, h.subs, h.subA_isSome, h.subA, ?_, ?_⟩
        · intro t2 ht2
          by_cases he : t2 = t
          · simp [he]
          · simp only [if_neg he]
            exact h.tasks t2 ht2
        · by_cases htA : tidA = t
          · left
            simp [htA]
          · rcases h.taskA with heq | hq
            · left
              simp only [if_neg htA]
              exact heq
            · right
              refine ⟨?_, ?_⟩
              · intro t3 ht3
                have ht3b : (if tidA = t then some (⟨o, ph'⟩ : Task) else w1.tasks tidA)
                    = some t3 := ht3
                rw [if_neg htA] at ht3b
                exact hq.1 t3 ht3b
              · intro t3 ht3
                have ht3b : (if tidA = t then some (⟨o, ph'⟩ : Task) else w2.tasks tidA)
                    = some t3 := ht3
                rw [if_neg htA] at ht3b
                exact hq.2 t3 ht3b
      rcases hout : server k with v | c | m | m
      · have e1 : doNetRespond server w1 t =
            { w1 with
              cache := fun k2 => if k2 = k then some v else w1.cache k2,
              tasks := fun t2 => if t2 = t then some ⟨o, .toResolve (some v)⟩
                else w1.tasks t2 } := by
          simp [doNetRespond, hv1, hout]
        have e2 : doNetRespond server w2 t =
            { w2 with
              cache := fun k2 => if k2 = k then some v else w2.cache k2,
              tasks := fun t2 => if t2 = t then some ⟨o, .toResolve (some v)⟩
                else w2.tasks t2 } := by
          simp [doNetRespond, hv, hout]
        rw [e1, e2]
        have hT2 := hT (.toResolve (some v))
        refine ⟨?_, hT2.netLog, hT2.nSubs, hT2.nextId, hT2.subs, hT2.subA_isSome,
          hT2.subA, hT2.tasks, hT2.taskA⟩
        show (fun k2 => if k2 = k then some v else w1.cache k2)
          = fun k2 => if k2 = k then some v else w2.cache k2
        rw [h.cache]
      · have e1 : doNetRespond server w1 t =
            { w1 with
              tasks := fun t2 => if t2 = t then
                  some ⟨o, if opt then .toResolve none else .toReject (failMsg k c)⟩
                else w1.tasks t2 } := by
          simp [doNetRespond, hv1, hout]
        have e2 : doNetRespond server w2 t =
            { w2 with
              tasks := fun t2 => if t2 = t then
                  some ⟨o, if opt then .toResolve none else .toReject (failMsg k c)⟩
                else w2.tasks t2 } := by
          simp [doNetRespond, hv, hout]
        rw [e1, e2]
        exact hT _
      · have e1 : doNetRespond server w1 t =
            { w1 with
              tasks := fun t2 => if t2 = t then
                  some ⟨o, if opt then .toResolve none else .toReject m⟩
                else w1.tasks t2 } := by
          simp [doNetRespond, hv1, hout]
        have e2 : doNetRespond server w2 t =
            { w2 with
              tasks := fun t2 => if t2 = t then
                  some ⟨o, if opt then .toResolve none else .toReject m⟩
                else w2.tasks t2 } := by
          simp [doNetRespond, hv, hout]
        rw [e1, e2]
        exact hT _
      · have e1 : doNetRespond server w1 t =
            { w1 with
              tasks := fun t2 => if t2 = t then
                  some ⟨o, if opt then .toResolve none else .toReject m⟩
                else w1.tasks t2 } := by
          simp [doNetRespond, hv1, hout]
        have e2 : doNetRespond server w2 t =
            { w2 with
              tasks := fun t2 => if t2 = t then
                  some ⟨o, if opt then .toResolve none else .toReject m⟩
                else w2.tasks t2 } := by
          simp [doNetRespond, hv, hout]
        rw [e1, e2]
        exact hT _

/-- Quiet step: processing the response of a task that belongs to `A` and is
quiet changes nothing but that task's phase, which stays quiet. -/
theorem respond_quiet (server : String → FetchOutcome) (A : Nat) (w : World) (tid : Nat)
    (hq : ∀ t, w.tasks tid = some t → t.owner = A ∧ quietPhase server t.phase) :
    (doNetRespond server w tid).cache = w.cache ∧
    (doNetRespond server w tid).netLog = w.netLog ∧
    (doNetRespond server w tid).nSubs = w.nSubs ∧
    (doNetRespond server w tid).nextId = w.nextId ∧
    (doNetRespond server w tid).subs = w.subs ∧
    (∀ t2, t2 ≠ tid → (doNetRespond server w tid).tasks t2 = w.tasks t2) ∧
    (∀ t, (doNetRespond server w tid).tasks tid = some t →
      t.owner = A ∧ quietPhase server t.phase) := by
  rcases hv : w.tasks tid with _ | ⟨o, ph⟩
  · rw [show doNetRespond server w tid = w from by simp [doNetRespond, hv]]
    exact ⟨rfl, rfl, rfl, rfl, rfl, fun _ _ => rfl, fun t ht => hq t ht⟩
  · obtain ⟨hown, hquiet⟩ := hq ⟨o, ph⟩ hv
    cases ph with
    | toResolve d =>
      rw [show doNetRespond server w tid = w from by simp [doNetRespond, hv]]
      exact ⟨rfl, rfl, rfl, rfl, rfl, fun _ _ => rfl, fun t ht => hq t ht⟩
    | toReject m =>
      rw [show doNetRespond server w tid = w from by simp [doNetRespond, hv]]
      exact ⟨rfl, rfl, rfl, rfl, rfl, fun _ _ => rfl, fun t ht => hq t ht⟩
    | awaitingNet k opt =>
      have hfail : (server k).fails = true := hquiet
      rcases hout : server k with v | c | m | m
      · rw [hout] at hfail
        simp [FetchOutcome.fails] at hfail
      · refine ⟨by simp [doNetRespond, hv, hout], by simp [doNetRespond, hv, hout],
          by simp [doNetRespond, hv, hout], by simp [doNetRespond, hv, hout],
          by simp [doNetRespond, hv, hout], ?_, ?_⟩
        · intro t2 ht2
          simp [doNetRespond, hv, hout, ht2]
        · intro t ht
          have e1 : (doNetRespond server w tid).tasks tid
              = some ⟨o, if opt then .toResolve none else .toReject (failMsg k c)⟩ := by
            simp [doNetRespond, hv, hout]
          rw [e1] at ht
          injection ht with hX
          rw [← hX]
          refine ⟨by simpa using hown, ?_⟩
          by_cases hopt : opt = true <;> simp [hopt, quietPhase]
      · refine ⟨by simp [doNetRespond, hv, hout], by simp [doNetRespond, hv, hout],
          by simp [doNetRespond, hv, hout], by simp [doNetRespond, hv, hout],
          by simp [doNetRespond, hv, hout], ?_, ?_⟩
        · intro t2 ht2
          simp [doNetRespond, hv, hout, ht2]
        · intro t ht
          have e1 : (doNetRespond server w tid).tasks tid
              = some ⟨o, if opt then .toResolve none else .toReject m⟩ := by
            simp [doNetRespond, hv, hout]
          rw [e1] at ht
          injection ht with hX
          rw [← hX]
          refine ⟨by simpa using hown, ?_⟩
          by_cases hopt : opt = true <;> simp [hopt, quietPhase]
      · refine ⟨by simp [doNetRespond, hv, hout], by simp [doNetRespond, hv, hout],
          by simp [doNetRespond, hv, hout], by simp [doNetRespond, hv, hout],
          by simp [doNetRespond, hv, hout], ?_, ?_⟩
        · intro t2 ht2
          simp [doNetRespond, hv, hout, ht2]
        · intro t ht
          have e1 : (doNetRespond server w tid).tasks tid
              = some ⟨o, if opt then .toResolve none else .toReject m⟩ := by
            simp [doNetRespond, hv, hout]
          rw [e1] at ht
          injection ht with hX
          rw [← hX]
          refine ⟨by simpa using hown, ?_⟩
          by_cases hopt : opt = true <;> simp [hopt, quietPhase]

/-- Mirror step: delivering the continuation of a task on which the two
related worlds agree preserves the relation. -/
theorem agree_deliver_mirror (server : String → FetchOutcome) (A tidA : Nat)
    (w1 w2 : World) (h : AgreeExceptAt server A tidA w1 w2) (t : Nat)
    (heqt : w1.tasks t = w2.tasks t) :
    AgreeExceptAt server A tidA (doDeliver w1 t) (doDeliver w2 t) := by
  have hTasks : ∀ t2, t2 ≠ tidA →
      (if t2 = t then none else w1.tasks t2) = (if t2 = t then none else w2.tasks t2) := by
    intro t2 ht2
    by_cases he : t2 = t
    · simp [he]
    · simp only [if_neg he]
      exact h.tasks t2 ht2
  have hTaskA : (if tidA = t then none else w1.tasks tidA)
        = (if tidA = t then none else w2.tasks tidA) ∨
      ((∀ t3, (if tidA = t then none else w1.tasks tidA) = some t3 →
          t3.owner = A ∧ quietPhase server t3.phase) ∧
        (∀ t3, (if tidA = t then none else w2.tasks tidA) = some t3 →
          t3.owner = A ∧ quietPhase server t3.phase)) := by
    by_cases htA : tidA = t
    · left
      simp [htA]
    · rcases h.taskA with heq | hq
      · left
        simp only [if_neg htA]
        exact heq
      · right
        refine ⟨?_, ?_⟩
        · intro t3 ht3
          rw [if_neg htA] at ht3
          exact hq.1 t3 ht3
        · intro t3 ht3
          rw [if_neg htA] at ht3
          exact hq.2 t3 ht3
  rcases hv : w2.tasks t with _ | ⟨o, ph⟩
  · have hv1 : w1.tasks t = none := heqt.trans hv
    rw [show doDeliver w1 t = w1 from by simp [doDeliver, hv1],
      show doDeliver w2 t = w2 from by simp [doDeliver, hv]]
    exact h
  · have hv1 : w1.tasks t = some ⟨o, ph⟩ := heqt.trans hv
    cases ph with
    | awaitingNet k opt =>
      rw [show doDeliver w1 t = w1 from by simp [doDeliver, hv1],
        show doDeliver w2 t = w2 from by simp [doDeliver, hv]]
      exact h
    | toResolve d =>
      by_cases hoA : o = A
      · subst hoA
        rcases hs2 : w2.subs o with _ | s2
        · have hs1 : w1.subs o = none := by
            have hi := h.subA_isSome
            rw [hs2] at hi
            rcases hh : w1.subs o with _ | s1
            · rfl
            · rw [hh] at hi; simp at hi
          rw [show doDeliver w1 t
                = { w1 with tasks := fun t2 => if t2 = t then none else w1.tasks t2 } from by
              simp [doDeliver, hv1, hs1],
            show doDeliver w2 t
                = { w2 with tasks := fun t2 => if t2 = t then none else w2.tasks t2 } from by
              simp [doDeliver, hv, hs2]]
          exact ⟨h.cache, h.netLog, h.nSubs, h.nextId, h.subs, h.subA_isSome, h.subA,
            hTasks, hTaskA⟩
        · obtain ⟨s1, hs1⟩ : ∃ s1, w1.subs o = some s1 := by
            have hi := h.subA_isSome
            rw [hs2] at hi
            rcases hh : w1.subs o with _ | s1
            · rw [hh] at hi; simp at hi
            · exact ⟨s1, rfl⟩
          obtain ⟨hld, hmt, htd⟩ := h.subA s1 s2 hs1 hs2
          by_cases hm : s2.mounted = true
          · have hm1 : s1.mounted = true := by rw [hmt]; exact hm
            rw [show doDeliver w1 t
                  = { w1 with
                      tasks := fun t2 => if t2 = t then none else w1.tasks t2,
                      subs := fun j => if j = o then
                          some { s1 with data := d, loading := false }
                        else w1.subs j } from by
                simp [doDeliver, hv1, hs1, hm1],
              show doDeliver w2 t
                  = { w2 with
                      tasks := fun t2 => if t2 = t then none else w2.tasks t2,
                      subs := fun j => if j = o then
                          some { s2 with data := d, loading := false }
                        else w2.subs j } from by
                simp [doDeliver, hv, hs2, hm]]
            refine ⟨h.cache, h.netLog, h.nSubs, h.nextId, ?_, ?_, ?_, hTasks, hTaskA⟩
            · intro j hj
              show (if j = o then some { s1 with data := d, loading := false }
                  else w1.subs j)
                = (if j = o then some { s2 with data := d, loading := false }
                  else w2.subs j)
              rw [if_neg hj, if_neg hj]
              exact h.subs j hj
            · show (if o = o then some { s1 with data := d, loading := false }
                  else w1.subs o).isSome
                = (if o = o then some { s2 with data := d, loading := false }
                  else w2.subs o).isSome
              simp
            · intro sa sb hsa hsb
              have hsa2 : (if o = o then some { s1 with data := d, loading := false }
                  else w1.subs o) = some sa := hsa
              have hsb2 : (if o = o then some { s2 with data := d, loading := false }
                  else w2.subs o) = some sb := hsb
              rw [if_pos rfl] at hsa2 hsb2
              injection hsa2 with e1
              injection hsb2 with e2
              rw [← e1, ← e2]
              exact ⟨hld, hmt, htd⟩
          · have hm1 : ¬ s1.mounted = true := by rw [hmt]; exact hm
            rw [show doDeliver w1 t
                  = { w1 with tasks := fun t2 => if t2 = t then none else w1.tasks t2 } from by
                simp [doDeliver, hv1, hs1, hm1],
              show doDeliver w2 t
                  = { w2 with tasks := fun t2 => if t2 = t then none else w2.tasks t2 } from by
                simp [doDeliver, hv, hs2, hm]]
            exact ⟨h.cache, h.netLog, h.nSubs, h.nextId, h.subs, h.subA_isSome, h.subA,
              hTasks, hTaskA⟩
      · have hsubso := h.subs o hoA
        have hAo : A ≠ o := fun hh => hoA hh.symm
        rcases hs2 : w2.subs o with _ | s
        · have hs1 : w1.subs o = none := hsubso.trans hs2
          rw [show doDeliver w1 t
                = { w1 with tasks := fun t2 => if t2 = t then none else w1.tasks t2 } from by
              simp [doDeliver, hv1, hs1],
            show doDeliver w2 t
                = { w2 with tasks := fun t2 => if t2 = t then none else w2.tasks t2 } from by
              simp [doDeliver, hv, hs2]]
          exact ⟨h.cache, h.netLog, h.nSubs, h.nextId, h.subs, h.subA_isSome, h.subA,
            hTasks, hTaskA⟩
        · have hs1 : w1.subs o = some s := hsubso.trans hs2
          by_cases hm : s.mounted = true
          · rw [show doDeliver w1 t
                  = { w1 with
                      tasks := fun t2 => if t2 = t then none else w1.tasks t2,
                      subs := fun j => if j = o then
                          some { s with data := d, loading := false }
                        else w1.subs j } from by
                simp [doDeliver, hv1, hs1, hm],
              show doDeliver w2 t
                  = { w2 with
                      tasks := fun t2 => if t2 = t then none else w2.tasks t2,
                      subs := fun j => if j = o then
                          some { s with data := d, loading := false }
                        else w2.subs j } from by
                simp [doDeliver, hv, hs2, hm]]
            refine ⟨h.cache, h.netLog, h.nSubs, h.nextId, ?_, ?_, ?_, hTasks, hTaskA⟩
            · intro j hj
              show (if j = o then some { s with data := d, loading := false }
                  else w1.subs j)
                = (if j = o then some { s with data := d, loading := false }
                  else w2.subs j)
              by_cases hjo : j = o
              · simp [hjo]
              · simp only [if_neg hjo]
                exact h.subs j hj
            · show (if A = o then some { s with data := d, loading := false }
                  else w1.subs A).isSome
                = (if A = o then some { s with data := d, loading := false }
                  else w2.subs A).isSome
              rw [if_neg hAo, if_neg hAo]
              exact h.subA_isSome
            · intro sa sb hsa hsb
              have hsa2 : (if A = o then some { s with data := d, loading := false }
                  else w1.subs A) = some sa := hsa
              have hsb2 : (if A = o then some { s with data := d, loading := false }
                  else w2.subs A) = some sb := hsb
              rw [if_neg hAo] at hsa2 hsb2
              exact h.subA sa sb hsa2 hsb2
          · rw [show doDeliver w1 t
                  = { w1 with tasks := fun t2 => if t2 = t then none else w1.tasks t2 } from by
                simp [doDeliver, hv1, hs1, hm],
              show doDeliver w2 t
                  = { w2 with tasks := fun t2 => if t2 = t then none else w2.tasks t2 } from by
                simp [doDeliver, hv, hs2, hm]]
            exact ⟨h.cache, h.netLog, h.nSubs, h.nextId, h.subs, h.subA_isSome, h.subA,
              hTasks, hTaskA⟩
    | toReject m =>
      by_cases hoA : o = A
      · subst hoA
        rcases hs2 : w2.subs o with _ | s2
        · have hs1 : w1.subs o = none := by
            have hi := h.subA_isSome
            rw [hs2] at hi
            rcases hh : w1.subs o with _ | s1
            · rfl
            · rw [hh] at hi; simp at hi
          rw [show doDeliver w1 t
                = { w1 with tasks := fun t2 => if t2 = t then none else w1.tasks t2 } from by
              simp [doDeliver, hv1, hs1],
            show doDeliver w2 t
                = { w2 with tasks := fun t2 => if t2 = t then none else w2.tasks t2 } from by
              simp [doDeliver, hv, hs2]]
          exact ⟨h.cache, h.netLog, h.nSubs, h.nextId, h.subs, h.subA_isSome, h.subA,
            hTasks, hTaskA⟩
        · obtain ⟨s1, hs1⟩ : ∃ s1, w1.subs o = some s1 := by
            have hi := h.subA_isSome
            rw [hs2] at hi
            rcases hh : w1.subs o with _ | s1
            · rw [hh] at hi; simp at hi
            · exact ⟨s1, rfl⟩
          obtain ⟨hld, hmt, htd⟩ := h.subA s1 s2 hs1 hs2
          by_cases hm : s2.mounted = true
          · have hm1 : s1.mounted = true := by rw [hmt]; exact hm
            rw [show doDeliver w1 t
                  = { w1 with
                      tasks := fun t2 => if t2 = t then none else w1.tasks t2,
                      subs := fun j => if j = o then
                          some { s1 with error := some m, loading := false }
                        else w1.subs j } from by
                simp [doDeliver, hv1, hs1, hm1],
              show doDeliver w2 t
                  = { w2 with
                      tasks := fun t2 => if t2 = t then none else w2.tasks t2,
                      subs := fun j => if j = o then
                          some { s2 with error := some m, loading := false }
                        else w2.subs j } from by
                simp [doDeliver, hv, hs2, hm]]
            refine ⟨h.cache, h.netLog, h.nSubs, h.nextId, ?_, ?_, ?_, hTasks, hTaskA⟩
            · intro j hj
              show (if j = o then some { s1 with error := some m, loading := false }
                  else w1.subs j)
                = (if j = o then some { s2 with error := some m, loading := false }
                  else w2.subs j)
              rw [if_neg hj, if_neg hj]
              exact h.subs j hj
            · show (if o = o then some { s1 with error := some m, loading := false }
                  else w1.subs o).isSome
                = (if o = o then some { s2 with error := some m, loading := false }
                  else w2.subs o).isSome
              simp
            · intro sa sb hsa hsb
              have hsa2 : (if o = o then some { s1 with error := some m, loading := false }
                  else w1.subs o) = some sa := hsa
              have hsb2 : (if o = o then some { s2 with error := some m, loading := false }
                  else w2.subs o) = some sb := hsb
              rw [if_pos rfl] at hsa2 hsb2
              injection hsa2 with e1
              injection hsb2 with e2
              rw [← e1, ← e2]
              exact ⟨hld, hmt, htd⟩
          · have hm1 : ¬ s1.mounted = true := by rw [hmt]; exact hm
            rw [show doDeliver w1 t
                  = { w1 with tasks := fun t2 => if t2 = t then none else w1.tasks t2 } from by
                simp [doDeliver, hv1, hs1, hm1],
              show doDeliver w2 t
                  = { w2 with tasks := fun t2 => if t2 = t then none else w2.tasks t2 } from by
                simp [doDeliver, hv, hs2, hm]]
            exact ⟨h.cache, h.netLog, h.nSubs, h.nextId, h.subs, h.subA_isSome, h.subA,
              hTasks, hTaskA⟩
      · have hsubso := h.subs o hoA
        have hAo : A ≠ o := fun hh => hoA hh.symm
        rcases hs2 : w2.subs o with _ | s
        · have hs1 : w1.subs o = none := hsubso.trans hs2
          rw [show doDeliver w1 t
                = { w1 with tasks := fun t2 => if t2 = t then none else w1.tasks t2 } from by
              simp [doDeliver, hv1, hs1],
            show doDeliver w2 t
                = { w2 with tasks := fun t2 => if t2 = t then none else w2.tasks t2 } from by
              simp [doDeliver, hv, hs2]]
          exact ⟨h.cache, h.netLog, h.nSubs, h.nextId, h.subs, h.subA_isSome, h.subA,
            hTasks, hTaskA⟩
        · have hs1 : w1.subs o = some s := hsubso.trans hs2
          by_cases hm : s.mounted = true
          · rw [show doDeliver w1 t
                  = { w1 with
                      tasks := fun t2 => if t2 = t then none else w1.tasks t2,
                      subs := fun j => if j = o then
                          some { s with error := some m, loading := false }
                        else w1.subs j } from by
                simp [doDeliver, hv1, hs1, hm],
              show doDeliver w2 t
                  = { w2 with
                      tasks := fun t2 => if t2 = t then none else w2.tasks t2,
                      subs := fun j => if j = o then
                          some { s with error := some m, loading := false }
                        else w2.subs j } from by
                simp [doDeliver, hv, hs2, hm]]
            refine ⟨h.cache, h.netLog, h.nSubs, h.nextId, ?_, ?_, ?_, hTasks, hTaskA⟩
            · intro j hj
              show (if j = o then some { s with error := some m, loading := false }
                  else w1.subs j)
                = (if j = o then some { s with error := some m, loading := false }
                  else w2.subs j)
              by_cases hjo : j = o
              · simp [hjo]
              · simp only [if_neg hjo]
                exact h.subs j hj
            · show (if A = o then some { s with error := some m, loading := false }
                  else w1.subs A).isSome
                = (if A = o then some { s with error := some m, loading := false }
                  else w2.subs A).isSome
              rw [if_neg hAo, if_neg hAo]
              exact h.subA_isSome
            · intro sa sb hsa hsb
              have hsa2 : (if A = o then some { s with error := some m, loading := false }
                  else w1.subs A) = some sa := hsa
              have hsb2 : (if A = o then some { s with error := some m, loading := false }
                  else w2.subs A) = some sb := hsb
              rw [if_neg hAo] at hsa2 hsb2
              exact h.subA sa sb hsa2 hsb2
          · rw [show doDeliver w1 t
                  = { w1 with tasks := fun t2 => if t2 = t then none else w1.tasks t2 } from by
                simp [doDeliver, hv1, hs1, hm],
              show doDeliver w2 t
                  = { w2 with tasks := fun t2 => if t2 = t then none else w2.tasks t2 } from by
                simp [doDeliver, hv, hs2, hm]]
            exact ⟨h.cache, h.netLog, h.nSubs, h.nextId, h.subs, h.subA_isSome, h.subA,
              hTasks, hTaskA⟩
/-- Quiet step: delivering the continuation of a task that belongs to `A` and
is quiet touches nothing but `A`'s state cells and the task itself, and never
touches `A`'s `loader`, `mounted` or `torndown` fields. -/
theorem deliver_quiet (server : String → FetchOutcome) (A : Nat) (w : World) (tid : Nat)
    (hq : ∀ t, w.tasks tid = some t → t.owner = A ∧ quietPhase server t.phase) :
    (doDeliver w tid).cache = w.cache ∧
    (doDeliver w tid).netLog = w.netLog ∧
    (doDeliver w tid).nSubs = w.nSubs ∧
    (doDeliver w tid).nextId = w.nextId ∧
    (∀ j, j ≠ A → (doDeliver w tid).subs j = w.subs j) ∧
    ((doDeliver w tid).subs A).isSome = (w.subs A).isSome ∧
    (∀ s1 s2, (doDeliver w tid).subs A = some s1 → w.subs A = some s2 →
      s1.loader = s2.loader ∧ s1.mounted = s2.mounted ∧ s1.torndown = s2.torndown) ∧
    (∀ t2, t2 ≠ tid → (doDeliver w tid).tasks t2 = w.tasks t2) ∧
    (∀ t, (doDeliver w tid).tasks tid = some t →
      t.owner = A ∧ quietPhase server t.phase) := by
  rcases hv : w.tasks tid with _ | ⟨o, ph⟩
  · rw [show doDeliver w tid = w from by simp [doDeliver, hv]]
    refine ⟨rfl, rfl, rfl, rfl, fun j hj => rfl, rfl, ?_, fun t2 ht2 => rfl,
      fun t ht => hq t ht⟩
    intro s1 s2 h1 h2
    rw [h1] at h2
    injection h2 with hX
    rw [hX]
    exact ⟨rfl, rfl, rfl⟩
  · have hoA : o = A := (hq ⟨o, ph⟩ hv).1
    subst hoA
    cases ph with
    | awaitingNet k opt =>
      rw [show doDeliver w tid = w from by simp [doDeliver, hv]]
      refine ⟨rfl, rfl, rfl, rfl, fun j hj => rfl, rfl, ?_, fun t2 ht2 => rfl,
        fun t ht => hq t ht⟩
      intro s1 s2 h1 h2
      rw [h1] at h2
      injection h2 with hX
      rw [hX]
      exact ⟨rfl, rfl, rfl⟩
    | toResolve d =>
      rcases hs : w.subs o with _ | s
      · rw [show doDeliver w tid
            = { w with tasks := fun t2 => if t2 = tid then none else w.tasks t2 } from by
          simp [doDeliver, hv, hs]]
        refine ⟨rfl, rfl, rfl, rfl, fun j hj => rfl, ?_, ?_, ?_, ?_⟩
        · show (w.subs o).isSome = Option.none.isSome
          rw [hs]
        · intro s1 s2 h1 h2
          exact absurd h2 (by simp)
        · intro t2 ht2
          show (if t2 = tid then none else w.tasks t2) = w.tasks t2
          rw [if_neg ht2]
        · intro t ht
          have htb : (if tid = tid then none else w.tasks tid) = some t := ht
          rw [if_pos rfl] at htb
          exact absurd htb (by simp)
      · by_cases hm : s.mounted = true
        · rw [show doDeliver w tid
              = { w with
                  tasks := fun t2 => if t2 = tid then none else w.tasks t2,
                  subs := fun j => if j = o then
                      some { s with data := d, loading := false }
                    else w.subs j } from by
            simp [doDeliver, hv, hs, hm]]
          refine ⟨rfl, rfl, rfl, rfl, ?_, ?_, ?_, ?_, ?_⟩
          · intro j hj
            show (if j = o then some { s with data := d, loading := false }
                else w.subs j) = w.subs j
            rw [if_neg hj]
          · show (if o = o then some { s with data := d, loading := false }
                else w.subs o).isSome = (some s).isSome
            rw [if_pos rfl]
            rfl
          · intro s1 s2 h1 h2
            have h1b : (if o = o then some { s with data := d, loading := false }
                else w.subs o) = some s1 := h1
            rw [if_pos rfl] at h1b
            injection h1b with e1
            injection h2 with e2
            rw [← e1, ← e2]
            exact ⟨rfl, rfl, rfl⟩
          · intro t2 ht2
            show (if t2 = tid then none else w.tasks t2) = w.tasks t2
            rw [if_neg ht2]
          · intro t ht
            have htb : (if tid = tid then none else w.tasks tid) = some t := ht
            rw [if_pos rfl] at htb
            exact absurd htb (by simp)
        · rw [show doDeliver w tid
              = { w with tasks := fun t2 => if t2 = tid then none else w.tasks t2 } from by
            simp [doDeliver, hv, hs, hm]]
          refine ⟨rfl, rfl, rfl, rfl, fun j hj => rfl, ?_, ?_, ?_, ?_⟩
          · show (w.subs o).isSome = (some s).isSome
            rw [hs]
          · intro s1 s2 h1 h2
            have h1b : w.subs o = some s1 := h1
            rw [hs] at h1b
            injection h1b with e1
            injection h2 with e2
            rw [← e1, ← e2]
            exact ⟨rfl, rfl, rfl⟩
          · intro t2 ht2
            show (if t2 = tid then none else w.tasks t2) = w.tasks t2
            rw [if_neg ht2]
          · intro t ht
            have htb : (if tid = tid then none else w.tasks tid) = some t := ht
            rw [if_pos rfl] at htb
            exact absurd htb (by simp)
    | toReject m =>
      rcases hs : w.subs o with _ | s
      · rw [show doDeliver w tid
            = { w with tasks := fun t2 => if t2 = tid then none else w.tasks t2 } from by
          simp [doDeliver, hv, hs]]
        refine ⟨rfl, rfl, rfl, rfl, fun j hj => rfl, ?_, ?_, ?_, ?_⟩
        · show (w.subs o).isSome = Option.none.isSome
          rw [hs]
        · intro s1 s2 h1 h2
          exact absurd h2 (by simp)
        · intro t2 ht2
          show (if t2 = tid then none else w.tasks t2) = w.tasks t2
          rw [if_neg ht2]
        · intro t ht
          have htb : (if tid = tid then none else w.tasks tid) = some t := ht
          rw [if_pos rfl] at htb
          exact absurd htb (by simp)
      · by_cases hm : s.mounted = true
        · rw [show doDeliver w tid
              = { w with
                  tasks := fun t2 => if t2 = tid then none else w.tasks t2,
                  subs := fun j => if j = o then
                      some { s with error := some m, loading := false }
                    else w.subs j } from by
            simp [doDeliver, hv, hs, hm]]
          refine ⟨rfl, rfl, rfl, rfl, ?_, ?_, ?_, ?_, ?_⟩
          · intro j hj
            show (if j = o then some { s with error := some m, loading := false }
                else w.subs j) = w.subs j
            rw [if_neg hj]
          · show (if o = o then some { s with error := some m, loading := false }
                else w.subs o).isSome = (some s).isSome
            rw [if_pos rfl]
            rfl
          · intro s1 s2 h1 h2
            have h1b : (if o = o then some { s with error := some m, loading := false }
                else w.subs o) = some s1 := h1
            rw [if_pos rfl] at h1b
            injection h1b with e1
            injection h2 with e2
            rw [← e1, ← e2]
            exact ⟨rfl, rfl, rfl⟩
          · intro t2 ht2
            show (if t2 = tid then none else w.tasks t2) = w.tasks t2
            rw [if_neg ht2]
          · intro t ht
            have htb : (if tid = tid then none else w.tasks tid) = some t := ht
            rw [if_pos rfl] at htb
            exact absurd htb (by simp)
        · rw [show doDeliver w tid
              = { w with tasks := fun t2 => if t2 = tid then none else w.tasks t2 } from by
            simp [doDeliver, hv, hs, hm]]
          refine ⟨rfl, rfl, rfl, rfl, fun j hj => rfl, ?_, ?_, ?_, ?_⟩
          · show (w.subs o).isSome = (some s).isSome
            rw [hs]
          · intro s1 s2 h1 h2
            have h1b : w.subs o = some s1 := h1
            rw [hs] at h1b
            injection h1b with e1
            injection h2 with e2
            rw [← e1, ← e2]
            exact ⟨rfl, rfl, rfl⟩
          · intro t2 ht2
            show (if t2 = tid then none else w.tasks t2) = w.tasks t2
            rw [if_neg ht2]
          · intro t ht
            have htb : (if tid = tid then none else w.tasks tid) = some t := ht
            rw [if_pos rfl] at htb
            exact absurd htb (by simp)

/-- The simulation relation is preserved by every scheduler step. -/
theorem agree_step (server : String → FetchOutcome) (A tidA : Nat) (w1 w2 : World)
    (h : AgreeExceptAt server A tidA w1 w2) (e : Event) :
    AgreeExceptAt server A tidA (step server w1 e) (step server w2 e) := by
  cases e with
  | mountSub ldr =>
    have hsl : startLoader w1.cache ldr = startLoader w2.cache ldr := by rw [h.cache]
    refine ⟨h.cache, ?_, ?_, ?_, ?_, ?_, ?_, ?_, ?_⟩
    · show w1.netLog ++ (startLoader w1.cache ldr).2
        = w2.netLog ++ (startLoader w2.cache ldr).2
      rw [h.netLog, hsl]
    · show w1.nSubs + 1 = w2.nSubs + 1
      rw [h.nSubs]
    · show w1.nextId + 1 = w2.nextId + 1
      rw [h.nextId]
    · intro j hj
      show (if j = w1.nSubs then some ⟨ldr, none, true, none, true, false⟩ else w1.subs j)
        = (if j = w2.nSubs then some ⟨ldr, none, true, none, true, false⟩ else w2.subs j)
      rw [h.nSubs]
      by_cases hje : j = w2.nSubs
      · rw [if_pos hje, if_pos hje]
      · rw [if_neg hje, if_neg hje]
        exact h.subs j hj
    · show (if A = w1.nSubs then some ⟨ldr, none, true, none, true, false⟩
          else w1.subs A).isSome
        = (if A = w2.nSubs then some ⟨ldr, none, true, none, true, false⟩
          else w2.subs A).isSome
      rw [h.nSubs]
      by_cases hA : A = w2.nSubs
      · rw [if_pos hA, if_pos hA]
      · rw [if_neg hA, if_neg hA]
        exact h.subA_isSome
    · intro sa sb hsa hsb
      have hsa2 : (if A = w1.nSubs then some (⟨ldr, none, true, none, true, false⟩ : Sub)
          else w1.subs A) = some sa := hsa
      have hsb2 : (if A = w2.nSubs then some (⟨ldr, none, true, none, true, false⟩ : Sub)
          else w2.subs A) = some sb := hsb
      rw [h.nSubs] at hsa2
      by_cases hA : A = w2.nSubs
      · rw [if_pos hA] at hsa2 hsb2
        injection hsa2 with e1
        injection hsb2 with e2
        rw [← e1, ← e2]
        exact ⟨rfl, rfl, rfl⟩
      · rw [if_neg hA] at hsa2 hsb2
        exact h.subA sa sb hsa2 hsb2
    · intro t2 ht2
      show (if t2 = w1.nextId then some ⟨w1.nSubs, (startLoader w1.cache ldr).1⟩
          else w1.tasks t2)
        = (if t2 = w2.nextId then some ⟨w2.nSubs, (startLoader w2.cache ldr).1⟩
          else w2.tasks t2)
      rw [h.nextId, h.nSubs, hsl]
      by_cases hte : t2 = w2.nextId
      · rw [if_pos hte, if_pos hte]
      · rw [if_neg hte, if_neg hte]
        exact h.tasks t2 ht2
    · by_cases htA : tidA = w2.nextId
      · left
        show (if tidA = w1.nextId then some ⟨w1.nSubs, (startLoader w1.cache ldr).1⟩
            else w1.tasks tidA)
          = (if tidA = w2.nextId then some ⟨w2.nSubs, (startLoader w2.cache ldr).1⟩
            else w2.tasks tidA)
        rw [h.nextId, h.nSubs, hsl, if_pos htA, if_pos htA]
      · rcases h.taskA with heq | hq
        · left
          show (if tidA = w1.nextId then some ⟨w1.nSubs, (startLoader w1.cache ldr).1⟩
              else w1.tasks tidA)
            = (if tidA = w2.nextId then some ⟨w2.nSubs, (startLoader w2.cache ldr).1⟩
              else w2.tasks tidA)
          rw [h.nextId, h.nSubs, hsl, if_neg htA, if_neg htA]
          exact heq
        · right
          refine ⟨?_, ?_⟩
          · intro t3 ht3
            have ht3b : (if tidA = w1.nextId then
                  some (⟨w1.nSubs, (startLoader w1.cache ldr).1⟩ : Task)
                else w1.tasks tidA) = some t3 := ht3
            rw [h.nextId, if_neg htA] at ht3b
            exact hq.1 t3 ht3b
          · intro t3 ht3
            have ht3b : (if tidA = w2.nextId then
                  some (⟨w2.nSubs, (startLoader w2.cache ldr).1⟩ : Task)
                else w2.tasks tidA) = some t3 := ht3
            rw [if_neg htA] at ht3b
            exact hq.2 t3 ht3b
  | rerun i ldr =>
    have hsl : startLoader w1.cache ldr = startLoader w2.cache ldr := by rw [h.cache]
    by_cases hiA : i = A
    · subst hiA
      rcases hs2 : w2.subs i with _ | s2
      · have hs1 : w1.subs i = none := by
          have hi := h.subA_isSome
          rw [hs2] at hi
          rcases hh : w1.subs i with _ | s1
          · rfl
          · rw [hh] at hi; simp at hi
        show AgreeExceptAt server i tidA (doRerun w1 i ldr) (doRerun w2 i ldr)
        rw [show doRerun w1 i ldr = w1 from by simp [doRerun, hs1],
          show doRerun w2 i ldr = w2 from by simp [doRerun, hs2]]
        exact h
      · obtain ⟨s1, hs1⟩ : ∃ s1, w1.subs i = some s1 := by
          have hi := h.subA_isSome
          rw [hs2] at hi
          rcases hh : w1.subs i with _ | s1
          · rw [hh] at hi; simp at hi
          · exact ⟨s1, rfl⟩
        obtain ⟨hld, hmt, htd⟩ := h.subA s1 s2 hs1 hs2
        by_cases htdn : s2.torndown = true
        · have htd1 : s1.torndown = true := by rw [htd]; exact htdn
          show AgreeExceptAt server i tidA (doRerun w1 i ldr) (doRerun w2 i ldr)
          rw [show doRerun w1 i ldr = w1 from by simp [doRerun, hs1, htd1],
            show doRerun w2 i ldr = w2 from by simp [doRerun, hs2, htdn]]
          exact h
        · have htd1 : ¬ s1.torndown = true := by rw [htd]; exact htdn
          show AgreeExceptAt server i tidA (doRerun w1 i ldr) (doRerun w2 i ldr)
          rw [show doRerun w1 i ldr = { w1 with
                netLog := w1.netLog ++ (startLoader w1.cache ldr).2,
                subs := fun j => if j = i then
                    some { s1 with loader := ldr, loading := true, error := none, mounted := true }
                  else w1.subs j,
                nextId := w1.nextId + 1,
                tasks := fun t2 => if t2 = w1.nextId then
                    some ⟨i, (startLoader w1.cache ldr).1⟩
                  else w1.tasks t2 } from by
              simp [doRerun, hs1, htd1],
            show doRerun w2 i ldr = { w2 with
                netLog := w2.netLog ++ (startLoader w2.cache ldr).2,
                subs := fun j => if j = i then
                    some { s2 with loader := ldr, loading := true, error := none, mounted := true }
                  else w2.subs j,
                nextId := w2.nextId + 1,
                tasks := fun t2 => if t2 = w2.nextId then
                    some ⟨i, (startLoader w2.cache ldr).1⟩
                  else w2.tasks t2 } from by
              simp [doRerun, hs2, htdn]]
          refine ⟨h.cache, ?_, h.nSubs, ?_, ?_, ?_, ?_, ?_, ?_⟩
          · show w1.netLog ++ (startLoader w1.cache ldr).2
              = w2.netLog ++ (startLoader w2.cache ldr).2
            rw [h.netLog, hsl]
          · show w1.nextId + 1 = w2.nextId + 1
            rw [h.nextId]
          · intro j hj
            show (if j = i then some { s1 with loader := ldr, loading := true, error := none, mounted := true } else w1.subs j)
              = (if j = i then some { s2 with loader := ldr, loading := true, error := none, mounted := true } else w2.subs j)
            rw [if_neg hj, if_neg hj]
            exact h.subs j hj
          · show (if i = i then some { s1 with loader := ldr, loading := true, error := none, mounted := true } else w1.subs i).isSome
              = (if i = i then some { s2 with loader := ldr, loading := true, error := none, mounted := true } else w2.subs i).isSome
            rw [if_pos rfl, if_pos rfl]
            rfl
          · intro sa sb hsa hsb
            have hsa2 : (if i = i then some ({ s1 with loader := ldr, loading := true, error := none, mounted := true }) else w1.subs i) = some sa := hsa
            have hsb2 : (if i = i then some ({ s2 with loader := ldr, loading := true, error := none, mounted := true }) else w2.subs i) = some sb := hsb
            rw [if_pos rfl] at hsa2 hsb2
            injection hsa2 with e1
            injection hsb2 with e2
            rw [← e1, ← e2]
            exact ⟨rfl, rfl, htd⟩
          · intro t2 ht2
            show (if t2 = w1.nextId then some ⟨i, (startLoader w1.cache ldr).1⟩
                else w1.tasks t2)
              = (if t2 = w2.nextId then some ⟨i, (startLoader w2.cache ldr).1⟩
                else w2.tasks t2)
            rw [h.nextId, hsl]
            by_cases hte : t2 = w2.nextId
            · rw [if_pos hte, if_pos hte]
            · rw [if_neg hte, if_neg hte]
              exact h.tasks t2 ht2
          · by_cases htA : tidA = w2.nextId
            · left
              show (if tidA = w1.nextId then some ⟨i, (startLoader w1.cache ldr).1⟩
                  else w1.tasks tidA)
                = (if tidA = w2.nextId then some ⟨i, (startLoader w2.cache ldr).1⟩
                  else w2.tasks tidA)
              rw [h.nextId, hsl, if_pos htA, if_pos htA]
            · rcases h.taskA with heq | hq
              · left
                show (if tidA = w1.nextId then some ⟨i, (startLoader w1.cache ldr).1⟩
                    else w1.tasks tidA)
                  = (if tidA = w2.nextId then some ⟨i, (startLoader w2.cache ldr).1⟩
                    else w2.tasks tidA)
                rw [h.nextId, hsl, if_neg htA, if_neg htA]
                exact heq
              · right
                refine ⟨?_, ?_⟩
                · intro t3 ht3
                  have ht3b : (if tidA = w1.nextId then
                        some (⟨i, (startLoader w1.cache ldr).1⟩ : Task)
                      else w1.tasks tidA) = some t3 := ht3
                  rw [h.nextId, if_neg htA] at ht3b
                  exact hq.1 t3 ht3b
                · intro t3 ht3
                  have ht3b : (if tidA = w2.nextId then
                        some (⟨i, (startLoader w2.cache ldr).1⟩ : Task)
                      else w2.tasks tidA) = some t3 := ht3
                  rw [if_neg htA] at ht3b
                  exact hq.2 t3 ht3b
    · have hsubsi := h.subs i hiA
      rcases hs2 : w2.subs i with _ | s
      · have hs1 : w1.subs i = none := hsubsi.trans hs2
        show AgreeExceptAt server A tidA (doRerun w1 i ldr) (doRerun w2 i ldr)
        rw [show doRerun w1 i ldr = w1 from by simp [doRerun, hs1],
          show doRerun w2 i ldr = w2 from by simp [doRerun, hs2]]
        exact h
      · have hs1 : w1.subs i = some s := hsubsi.trans hs2
        by_cases htdn : s.torndown = true
        · show AgreeExceptAt server A tidA (doRerun w1 i ldr) (doRerun w2 i ldr)
          rw [show doRerun w1 i ldr = w1 from by simp [doRerun, hs1, htdn],
            show doRerun w2 i ldr = w2 from by simp [doRerun, hs2, htdn]]
          exact h
        · have hAi : A ≠ i := fun hh => hiA hh.symm
          show AgreeExceptAt server A tidA (doRerun w1 i ldr) (doRerun w2 i ldr)
          rw [show doRerun w1 i ldr = { w1 with
                netLog := w1.netLog ++ (startLoader w1.cache ldr).2,
                subs := fun j => if j = i then
                    some { s with loader := ldr, loading := true, error := none, mounted := true }
                  else w1.subs j,
                nextId := w1.nextId + 1,
                tasks := fun t2 => if t2 = w1.nextId then
                    some ⟨i, (startLoader w1.cache ldr).1⟩
                  else w1.tasks t2 } from by
              simp [doRerun, hs1, htdn],
            show doRerun w2 i ldr = { w2 with
                netLog := w2.netLog ++ (startLoader w2.cache ldr).2,
                subs := fun j => if j = i then
                    some { s with loader := ldr, loading := true, error := none, mounted := true }
                  else w2.subs j,
                nextId := w2.nextId + 1,
                tasks := fun t2 => if t2 = w2.nextId then
                    some ⟨i, (startLoader w2.cache ldr).1⟩
                  else w2.tasks t2 } from by
              simp [doRerun, hs2, htdn]]
          refine ⟨h.cache, ?_, h.nSubs, ?_, ?_, ?_, ?_, ?_, ?_⟩
          · show w1.netLog ++ (startLoader w1.cache ldr).2
              = w2.netLog ++ (startLoader w2.cache ldr).2
            rw [h.netLog, hsl]
          · show w1.nextId + 1 = w2.nextId + 1
            rw [h.nextId]
          · intro j hj
            show (if j = i then some { s with loader := ldr, loading := true, error := none, mounted := true } else w1.subs j)
              = (if j = i then some { s with loader := ldr, loading := true, error := none, mounted := true } else w2.subs j)
            by_cases hji : j = i
            · rw [if_pos hji, if_pos hji]
            · rw [if_neg hji, if_neg hji]
              exact h.subs j hj
          · show (if A = i then some { s with loader := ldr, loading := true, error := none, mounted := true } else w1.subs A).isSome
              = (if A = i then some { s with loader := ldr, loading := true, error := none, mounted := true } else w2.subs A).isSome
            rw [if_neg hAi, if_neg hAi]
            exact h.subA_isSome
          · intro sa sb hsa hsb
            have hsa2 : (if A = i then some ({ s with loader := ldr, loading := true, error := none, mounted := true }) else w1.subs A) = some sa := hsa
            have hsb2 : (if A = i then some ({ s with loader := ldr, loading := true, error := none, mounted := true }) else w2.subs A) = some sb := hsb
            rw [if_neg hAi] at hsa2 hsb2
            exact h.subA sa sb hsa2 hsb2
          · intro t2 ht2
            show (if t2 = w1.nextId then some ⟨i, (startLoader w1.cache ldr).1⟩
                else w1.tasks t2)
              = (if t2 = w2.nextId then some ⟨i, (startLoader w2.cache ldr).1⟩
                else w2.tasks t2)
            rw [h.nextId, hsl]
            by_cases hte : t2 = w2.nextId
            · rw [if_pos hte, if_pos hte]
            · rw [if_neg hte, if_neg hte]
              exact h.tasks t2 ht2
          · by_cases htA : tidA = w2.nextId
            · left
              show (if tidA = w1.nextId then some ⟨i, (startLoader w1.cache ldr).1⟩
                  else w1.tasks tidA)
                = (if tidA = w2.nextId then some ⟨i, (startLoader w2.cache ldr).1⟩
                  else w2.tasks tidA)
              rw [h.nextId, hsl, if_pos htA, if_pos htA]
            · rcases h.taskA with heq | hq
              · left
                show (if tidA = w1.nextId then some ⟨i, (startLoader w1.cache ldr).1⟩
                    else w1.tasks tidA)
                  = (if tidA = w2.nextId then some ⟨i, (startLoader w2.cache ldr).1⟩
                    else w2.tasks tidA)
                rw [h.nextId, hsl, if_neg htA, if_neg htA]
                exact heq
              · right
                refine ⟨?_, ?_⟩
                · intro t3 ht3
                  have ht3b : (if tidA = w1.nextId then
                        some (⟨i, (startLoader w1.cache ldr).1⟩ : Task)
                      else w1.tasks tidA) = some t3 := ht3
                  rw [h.nextId, if_neg htA] at ht3b
                  exact hq.1 t3 ht3b
                · intro t3 ht3
                  have ht3b : (if tidA = w2.nextId then
                        some (⟨i, (startLoader w2.cache ldr).1⟩ : Task)
                      else w2.tasks tidA) = some t3 := ht3
                  rw [if_neg htA] at ht3b
                  exact hq.2 t3 ht3b
  | unmount i =>
    by_cases hiA : i = A
    · subst hiA
      rcases hs2 : w2.subs i with _ | s2
      · have hs1 : w1.subs i = none := by
          have hi := h.subA_isSome
          rw [hs2] at hi
          rcases hh : w1.subs i with _ | s1
          · rfl
          · rw [hh] at hi; simp at hi
        show AgreeExceptAt server i tidA (doUnmount w1 i) (doUnmount w2 i)
        rw [show doUnmount w1 i = w1 from by simp [doUnmount, hs1],
          show doUnmount w2 i = w2 from by simp [doUnmount, hs2]]
        exact h
      · obtain ⟨s1, hs1⟩ : ∃ s1, w1.subs i = some s1 := by
          have hi := h.subA_isSome
          rw [hs2] at hi
          rcases hh : w1.subs i with _ | s1
          · rw [hh] at hi; simp at hi
          · exact ⟨s1, rfl⟩
        obtain ⟨hld, hmt, htd⟩ := h.subA s1 s2 hs1 hs2
        show AgreeExceptAt server i tidA (doUnmount w1 i) (doUnmount w2 i)
        rw [show doUnmount w1 i = { w1 with
              subs := fun j => if j = i then
                  some { s1 with mounted := false, torndown := true }
                else w1.subs j } from by
            simp [doUnmount, hs1],
          show doUnmount w2 i = { w2 with
              subs := fun j => if j = i then
                  some { s2 with mounted := false, torndown := true }
                else w2.subs j } from by
            simp [doUnmount, hs2]]
        refine ⟨h.cache, h.netLog, h.nSubs, h.nextId, ?_, ?_, ?_, h.tasks, h.taskA⟩
        · intro j hj
          show (if j = i then some { s1 with mounted := false, torndown := true }
              else w1.subs j)
            = (if j = i then some { s2 with mounted := false, torndown := true }
              else w2.subs j)
          rw [if_neg hj, if_neg hj]
          exact h.subs j hj
        · show (if i = i then some { s1 with mounted := false, torndown := true }
              else w1.subs i).isSome
            = (if i = i then some { s2 with mounted := false, torndown := true }
              else w2.subs i).isSome
          rw [if_pos rfl, if_pos rfl]
          rfl
        · intro sa sb hsa hsb
          have hsa2 : (if i = i then some ({ s1 with mounted := false, torndown := true })
              else w1.subs i) = some sa := hsa
          have hsb2 : (if i = i then some ({ s2 with mounted := false, torndown := true })
              else w2.subs i) = some sb := hsb
          rw [if_pos rfl] at hsa2 hsb2
          injection hsa2 with e1
          injection hsb2 with e2
          rw [← e1, ← e2]
          exact ⟨hld, rfl, rfl⟩
    · have hsubsi := h.subs i hiA
      have hAi : A ≠ i := fun hh => hiA hh.symm
      rcases hs2 : w2.subs i with _ | s
      · have hs1 : w1.subs i = none := hsubsi.trans hs2
        show AgreeExceptAt server A tidA (doUnmount w1 i) (doUnmount w2 i)
        rw [show doUnmount w1 i = w1 from by simp [doUnmount, hs1],
          show doUnmount w2 i = w2 from by simp [doUnmount, hs2]]
        exact h
      · have hs1 : w1.subs i = some s := hsubsi.trans hs2
        show AgreeExceptAt server A tidA (doUnmount w1 i) (doUnmount w2 i)
        rw [show doUnmount w1 i = { w1 with
              subs := fun j => if j = i then
                  some { s with mounted := false, torndown := true }
                else w1.subs j } from by
            simp [doUnmount, hs1],
          show doUnmount w2 i = { w2 with
              subs := fun j => if j = i then
                  some { s with mounted := false, torndown := true }
                else w2.subs j } from by
            simp [doUnmount, hs2]]
        refine ⟨h.cache, h.netLog, h.nSubs, h.nextId, ?_, ?_, ?_, h.tasks, h.taskA⟩
        · intro j hj
          show (if j = i then some { s with mounted := false, torndown := true }
              else w1.subs j)
            = (if j = i then some { s with mounted := false, torndown := true }
              else w2.subs j)
          by_cases hji : j = i
          · rw [if_pos hji, if_pos hji]
          · rw [if_neg hji, if_neg hji]
            exact h.subs j hj
        · show (if A = i then some { s with mounted := false, torndown := true }
              else w1.subs A).isSome
            = (if A = i then some { s with mounted := false, torndown := true }
              else w2.subs A).isSome
          rw [if_neg hAi, if_neg hAi]
          exact h.subA_isSome
        · intro sa sb hsa hsb
          have hsa2 : (if A = i then some ({ s with mounted := false, torndown := true })
              else w1.subs A) = some sa := hsa
          have hsb2 : (if A = i then some ({ s with mounted := false, torndown := true })
              else w2.subs A) = some sb := hsb
          rw [if_neg hAi] at hsa2 hsb2
          exact h.subA sa sb hsa2 hsb2
  | netRespond t =>
    by_cases htid : t = tidA
    · subst htid
      rcases h.taskA with heq | hq
      · exact agree_respond_mirror server A t w1 w2 h t heq
      · obtain ⟨c1, n1, s1n, i1, sb1, tk1, qa1⟩ := respond_quiet server A w1 t hq.1
        obtain ⟨c2, n2, s2n, i2, sb2, tk2, qa2⟩ := respond_quiet server A w2 t hq.2
        refine ⟨c1.trans (h.cache.trans c2.symm), n1.trans (h.netLog.trans n2.symm),
          s1n.trans (h.nSubs.trans s2n.symm), i1.trans (h.nextId.trans i2.symm),
          ?_, ?_, ?_, ?_, ?_⟩
        · intro j hj
          show (doNetRespond server w1 t).subs j = (doNetRespond server w2 t).subs j
          rw [sb1, sb2]
          exact h.subs j hj
        · show ((doNetRespond server w1 t).subs A).isSome
            = ((doNetRespond server w2 t).subs A).isSome
          rw [sb1, sb2]
          exact h.subA_isSome
        · intro sa sb hsa hsb
          have hsa2 : (doNetRespond server w1 t).subs A = some sa := hsa
          have hsb2 : (doNetRespond server w2 t).subs A = some sb := hsb
          rw [sb1] at hsa2
          rw [sb2] at hsb2
          exact h.subA sa sb hsa2 hsb2
        · intro t2 ht2
          show (doNetRespond server w1 t).tasks t2 = (doNetRespond server w2 t).tasks t2
          rw [tk1 t2 ht2, tk2 t2 ht2]
          exact h.tasks t2 ht2
        · right
          exact ⟨qa1, qa2⟩
    · exact agree_respond_mirror server A tidA w1 w2 h t (h.tasks t htid)
  | deliver t =>
    by_cases htid : t = tidA
    · subst htid
      rcases h.taskA with heq | hq
      · exact agree_deliver_mirror server A t w1 w2 h t heq
      · obtain ⟨c1, n1, s1n, i1, sj1, i1s, sa1, tk1, qa1⟩ := deliver_quiet server A w1 t hq.1
        obtain ⟨c2, n2, s2n, i2, sj2, i2s, sa2, tk2, qa2⟩ := deliver_quiet server A w2 t hq.2
        refine ⟨c1.trans (h.cache.trans c2.symm), n1.trans (h.netLog.trans n2.symm),
          s1n.trans (h.nSubs.trans s2n.symm), i1.trans (h.nextId.trans i2.symm),
          ?_, i1s.trans (h.subA_isSome.trans i2s.symm), ?_, ?_, ?_⟩
        · intro j hj
          show (doDeliver w1 t).subs j = (doDeliver w2 t).subs j
          rw [sj1 j hj, sj2 j hj]
          exact h.subs j hj
        · intro sa sb hsa hsb
          have hsa2 : (doDeliver w1 t).subs A = some sa := hsa
          have hsb2 : (doDeliver w2 t).subs A = some sb := hsb
          have hi1 : (w1.subs A).isSome = true := by rw [← i1s, hsa2]; rfl
          rcases hm1 : w1.subs A with _ | s1m
          · rw [hm1] at hi1; simp at hi1
          have hi2 : (w2.subs A).isSome = true := by rw [← i2s, hsb2]; rfl
          rcases hm2 : w2.subs A with _ | s2m
          · rw [hm2] at hi2; simp at hi2
          obtain ⟨l1, m1, t1⟩ := sa1 sa s1m hsa2 hm1
          obtain ⟨l2, m2, t2e⟩ := sa2 sb s2m hsb2 hm2
          obtain ⟨lm, mm, tm⟩ := h.subA s1m s2m hm1 hm2
          exact ⟨l1.trans (lm.trans l2.symm), m1.trans (mm.trans m2.symm),
            t1.trans (tm.trans t2e.symm)⟩
        · intro t2 ht2
          show (doDeliver w1 t).tasks t2 = (doDeliver w2 t).tasks t2
          rw [tk1 t2 ht2, tk2 t2 ht2]
          exact h.tasks t2 ht2
        · right
          exact ⟨qa1, qa2⟩
    · exact agree_deliver_mirror server A tidA w1 w2 h t (h.tasks t htid)

/-- Iterated preservation of the simulation relation. -/
theorem agree_run (server : String → FetchOutcome) (A tidA : Nat) :
    ∀ (es : List Event) (w1 w2 : World), AgreeExceptAt server A tidA w1 w2 →
      AgreeExceptAt server A tidA (run server w1 es) (run server w2 es) := by
  intro es
  induction es with
  | nil => intro w1 w2 h; exact h
  | cons e es ih =>
    intro w1 w2 h
    exact ih (step server w1 e) (step server w2 e) (agree_step server A tidA w1 w2 h e)

/-- C9: error isolation.  Let a request for subscription `A` be in flight on a
key that the server answers with a failure.  Processing that failing response
(and, through the rest of any schedule, delivering the resulting rejection)
never changes the loading/data/error state of any other subscription `B`, nor
the shared cache: after any continuation schedule, `B`'s state — and the
cache — are identical to what they would have been had the failing response
never been processed. -/
theorem error_isolation (server : String → FetchOutcome) (w : World) (A tidA : Nat)
    (key : String) (opt : Bool)
    (htask : w.tasks tidA = some ⟨A, .awaitingNet key opt⟩)
    (hfail : (server key).fails = true) (es : List Event) (B : Nat) (hB : B ≠ A) :
    (run server (step server w (.netRespond tidA)) es).subs B
      = (run server w es).subs B ∧
    (run server (step server w (.netRespond tidA)) es).cache
      = (run server w es).cache := by
  have hq : ∀ t, w.tasks tidA = some t → t.owner = A ∧ quietPhase server t.phase := by
    intro t ht
    rw [htask] at ht
    injection ht with hX
    rw [← hX]
    exact ⟨rfl, hfail⟩
  obtain ⟨qc, qn, qs, qi, qsub, qtk, qa⟩ := respond_quiet server A w tidA hq
  have hbase : AgreeExceptAt server A tidA (step server w (.netRespond tidA)) w := by
    refine ⟨qc, qn, qs, qi, ?_, ?_, ?_, qtk, ?_⟩
    · intro j hj
      show (doNetRespond server w tidA).subs j = w.subs j
      rw [qsub]
    · show ((doNetRespond server w tidA).subs A).isSome = (w.subs A).isSome
      rw [qsub]
    · intro s1 s2 h1 h2
      have h1b : (doNetRespond server w tidA).subs A = some s1 := h1
      rw [qsub] at h1b
      rw [h1b] at h2
      injection h2 with hX
      rw [hX]
      exact ⟨rfl, rfl, rfl⟩
    · right
      exact ⟨qa, hq⟩
  have hrun := agree_run server A tidA es (step server w (.netRespond tidA)) w hbase
  exact ⟨hrun.subs B hB, hrun.cache⟩

/-- Witness for C9: two subscriptions (global summary and module catalog) are
pending concurrently on a failing server; processing the failure of the first
leaves the second's whole observable history — here, its own completion —
unchanged. -/
theorem error_isolation_witness :
    (run serverMissing
        (step serverMissing
          (run serverMissing World.init
            [.mountSub (.plain gsKey), .mountSub (.plain modulesKey)])
          (.netRespond 0))
        [.netRespond 1, .deliver 1]).subs 1
      = (run serverMissing
          (run serverMissing World.init
            [.mountSub (.plain gsKey), .mountSub (.plain modulesKey)])
          [.netRespond 1, .deliver 1]).subs 1 := by
  exact (error_isolation serverMissing
    (run serverMissing World.init
      [.mountSub (.plain gsKey), .mountSub (.plain modulesKey)])
    0 0 gsKey false (by decide) (by decide) [.netRespond 1, .deliver 1] 1 (by decide)).1

end GeneformerAtlas
